import Mathlib

set_option linter.unusedVariables false
set_option linter.unusedTactic false

/-!
Verification of the ADF (Atlassian Document Format) <-> Markdown converter core
of the `atlassian-cli` repository.

The development shallowly embeds the Rust sources:
  * `src/jira/adf.rs`          (validator, Markdown->ADF builder, input dispatcher)
  * `src/markdown/adf/marks.rs`  (mark application engine)
  * `src/markdown/adf/inline.rs` (inline node renderer, date formatting)
  * `src/markdown/adf/blocks.rs` (block node renderer, depth guard, tables)
  * `src/markdown/common.rs`     (whitespace normalizer)
  * `src/markdown/adf/mod.rs`    (adf_to_markdown)

JSON values (serde_json::Value) are modelled by the inductive `JValue`.
Numbers carry a flag distinguishing integer-backed numbers from floats,
because `as_i64`/`as_u64` only succeed on integer-backed numbers.
Rust strings are modelled by Lean `String`; where the proofs need to compute,
string manipulation is routed through `List Char` so that the kernel can
evaluate it.
-/

/-- Number payload of a JSON value.  serde_json stores integers as
`i64`/`u64` and floats as `f64`; `as_i64`/`as_u64` succeed only on the
integer representations.  A float never has its numeric value inspected by
the embedded code (only its Debug text, carried here as a string). -/
inductive JNum where
  | int (n : Int)
  | float (repr : String)
deriving DecidableEq

/-- Model of `serde_json::Value`.  Objects are association lists; key order
is irrelevant to the embedded code, which only performs key lookups. -/
inductive JValue where
  | null
  | bool (b : Bool)
  | num (n : JNum)
  | str (s : String)
  | arr (xs : List JValue)
  | obj (kvs : List (String × JValue))

/-- Key lookup in an object association list (first match), modelling
`Map::get` on a serde_json object (keys are unique in real documents). -/
def lookupKV : List (String × JValue) → String → Option JValue
  | [], _ => none
  | (k, v) :: rest, key => if k = key then some v else lookupKV rest key

/-- Rust `Value::get(key)`: `Some` only on objects that carry the key. -/
def JValue.get (j : JValue) (key : String) : Option JValue :=
  match j with
  | .obj kvs => lookupKV kvs key
  | _ => none

/-- Rust `Value::as_str`. -/
def JValue.asStr : JValue → Option String
  | .str s => some s
  | _ => none

/-- Rust `Value::as_i64`: integer-backed numbers in `i64` range only (a float or
a string is never coerced). -/
def JValue.asI64 : JValue → Option Int
  | .num (.int n) => if -(2 ^ 63) ≤ n ∧ n < 2 ^ 63 then some n else none
  | _ => none

/-- Rust `Value::as_u64`: integer-backed numbers in `u64` range, returned as a
`Nat` (the code always converts the result `as usize`). -/
def JValue.asU64 : JValue → Option Nat
  | .num (.int n) => if 0 ≤ n ∧ n < 2 ^ 64 then some n.toNat else none
  | _ => none

/-- Rust `Value::as_array`. -/
def JValue.asArr : JValue → Option (List JValue)
  | .arr xs => some xs
  | _ => none

/-- Rust `Value::is_array`. -/
def JValue.isArr : JValue → Bool
  | .arr _ => true
  | _ => false

/-- Replace the value under `key`, or append the pair if the key
is absent; models index-assignment `node[key] = v` on a serde_json object.
(The real map is a `BTreeMap`, whose only observable difference is key
order, which nothing in the embedded code depends on.) -/
def setKV : List (String × JValue) → String → JValue → List (String × JValue)
  | [], key, v => [(key, v)]
  | (k, w) :: rest, key, v =>
    if k = key then (k, v) :: rest else (k, w) :: setKV rest key v

/-- Index-assignment `node[key] = v`.  The sources only ever apply it to
objects they constructed themselves; other shapes are left unchanged. -/
def JValue.setKey (j : JValue) (key : String) (v : JValue) : JValue :=
  match j with
  | .obj kvs => .obj (setKV kvs key v)
  | other => other

/-- ASCII lowercasing of a string, modelling `str::to_lowercase` on the
ASCII domain where the link-scheme comparison lives (the Unicode special
cases of the Rust function cannot produce an ASCII scheme prefix from
non-ASCII input). -/
def rustToLowercase (s : String) : String :=
  (s.toList.map Char.toLower).asString

/-- Rust `str::starts_with`, computed on character lists. -/
def strStartsWith (s pre : String) : Bool :=
  pre.toList.isPrefixOf s.toList

/-- Rust `str::repeat` / `"x".repeat(n)`. -/
def strRepeat (s : String) (n : Nat) : String :=
  String.join (List.replicate n s)

/-! ## Mark application engine — `src/markdown/adf/marks.rs` -/

/-- Embedding of `format_link`: link mark rendering with scheme sanitization
(`marks.rs` lines 29-52). -/
def format_link (text : String) (attrs : Option JValue) : String :=
  let href := ((attrs.bind (·.get "href")).bind JValue.asStr).getD ""
  if href = "" then text
  else
    let hrefLower := rustToLowercase href
    if strStartsWith hrefLower "javascript:" ∨ strStartsWith hrefLower "vbscript:"
        ∨ strStartsWith hrefLower "data:" then
      text
    else
      match (attrs.bind (·.get "title")).bind JValue.asStr with
      | some title => "[" ++ text ++ "](" ++ href ++ " \"" ++ title ++ "\")"
      | none => "[" ++ text ++ "](" ++ href ++ ")"

/-- Embedding of `format_subsup` (`marks.rs` lines 54-64). -/
def format_subsup (text : String) (attrs : Option JValue) : String :=
  let subType := ((attrs.bind (·.get "type")).bind JValue.asStr).getD "sub"
  match subType with
  | "sup" => "<sup>" ++ text ++ "</sup>"
  | _ => "<sub>" ++ text ++ "</sub>"

/-- Embedding of `format_text_color` (`marks.rs` lines 66-77). -/
def format_text_color (text : String) (attrs : Option JValue) : String :=
  let color := ((attrs.bind (·.get "color")).bind JValue.asStr).getD ""
  if color = "" then text
  else "<span style=\"color:" ++ color ++ "\">" ++ text ++ "</span>"

/-- Embedding of `format_background_color` (`marks.rs` lines 79-90). -/
def format_background_color (text : String) (attrs : Option JValue) : String :=
  let color := ((attrs.bind (·.get "color")).bind JValue.asStr).getD ""
  if color = "" then text
  else "<mark style=\"background:" ++ color ++ "\">" ++ text ++ "</mark>"

/-- One iteration of the `for mark in marks` loop body of `apply_marks`. -/
def apply_one (result : String) (mark : JValue) : String :=
  let markType := ((mark.get "type").bind JValue.asStr).getD ""
  let attrs := mark.get "attrs"
  match markType with
  | "strong" => "**" ++ result ++ "**"
  | "em" => "*" ++ result ++ "*"
  | "code" => "`" ++ result ++ "`"
  | "strike" => "~~" ++ result ++ "~~"
  | "underline" => "<u>" ++ result ++ "</u>"
  | "link" => format_link result attrs
  | "subsup" => format_subsup result attrs
  | "textColor" => format_text_color result attrs
  | "backgroundColor" => format_background_color result attrs
  | _ => result

/-- Embedding of `apply_marks` (`marks.rs` lines 3-27): fold of the loop body over the
mark list, in listed order. -/
def apply_marks (text : String) (marks : Option (List JValue)) : String :=
  match marks with
  | none => text
  | some ms => ms.foldl apply_one text

/-- Shorthand for an attribute-free mark object such as `{"type":"strong"}`. -/
def mkMark (t : String) : JValue :=
  .obj [("type", .str t)]

/-! ## Inline node renderer — `src/markdown/adf/inline.rs` -/

/-- ASCII uppercasing, modelling `str::to_uppercase` on the ASCII domain
(panel types and status texts in the spec scenarios are ASCII). -/
def rustToUppercase (s : String) : String :=
  (s.toList.map Char.toUpper).asString

/-- Embedding of `convert_text` (`inline.rs` lines 25-34). -/
def convert_text (node : JValue) : String :=
  let text := ((node.get "text").bind JValue.asStr).getD ""
  let marks := (node.get "marks").bind JValue.asArr
  apply_marks text marks

/-- Rust `text.trim_start_matches('@')`: drop every leading `@`. -/
def stripLeadingAts : List Char → List Char
  | '@' :: rest => stripLeadingAts rest
  | cs => cs

/-- Embedding of `convert_mention` (`inline.rs` lines 36-45). -/
def convert_mention (node : JValue) : String :=
  let attrs := node.get "attrs"
  let text := (((attrs.bind (·.get "text")).bind JValue.asStr).orElse
    (fun _ => (attrs.bind (·.get "id")).bind JValue.asStr)).getD "user"
  "@" ++ (stripLeadingAts text.toList).asString

/-- Embedding of `convert_emoji` (`inline.rs` lines 47-59). -/
def convert_emoji (node : JValue) : String :=
  let shortname := ((node.get "attrs").bind (·.get "shortName")).bind JValue.asStr
  let text := ((node.get "attrs").bind (·.get "text")).bind JValue.asStr
  ((text.orElse fun _ => shortname)).getD ""

/-- Embedding of `convert_inline_card` (`inline.rs` lines 61-73). -/
def convert_inline_card (node : JValue) : String :=
  let url := (((node.get "attrs").bind (·.get "url")).bind JValue.asStr).getD ""
  if url = "" then "" else "[" ++ url ++ "](" ++ url ++ ")"

/-- Year-3000 bound on seconds, `MAX_SECS` of `chrono_format_date`. -/
def MAX_SECS : Int := 32503680000

/-- Embedding of `is_leap_year` (`inline.rs` lines 139-141); years here are positive, so
truncating `%` agrees with the Rust `%`. -/
def is_leap_year (year : Int) : Bool :=
  (Int.tmod year 4 == 0 && Int.tmod year 100 != 0) || Int.tmod year 400 == 0

/-- Rust `if is_leap_year(year) { 366 } else { 365 }`. -/
def daysInYear (year : Int) : Int :=
  if is_leap_year year then 366 else 365

theorem daysInYear_ge (year : Int) : 365 ≤ daysInYear year := by
  unfold daysInYear; split <;> omega

/-- The `loop` of `chrono_format_date` that walks years from 1970,
consuming whole years from the day count. -/
def yearLoop (year : Int) (remaining : Int) : Int × Int :=
  if _h : remaining < daysInYear year then (year, remaining)
  else yearLoop (year + 1) (remaining - daysInYear year)
termination_by remaining.toNat
decreasing_by
  have h365 := daysInYear_ge year
  omega

/-- The `days_in_months` table of `chrono_format_date`. -/
def daysInMonths (leap : Bool) : List Int :=
  if leap then [31, 29, 31, 30, 31, 30, 31, 31, 30, 31, 30, 31]
  else [31, 28, 31, 30, 31, 30, 31, 31, 30, 31, 30, 31]

/-- The `for days in days_in_months` loop of `chrono_format_date`:
month starts at 1 and the loop stops at the month containing `remaining`. -/
def monthLoop : List Int → Int → Int → Int × Int
  | [], remaining, month => (month, remaining)
  | d :: ds, remaining, month =>
    if remaining < d then (month, remaining)
    else monthLoop ds (remaining - d) (month + 1)

/-- Rust `format!("{:0w}")` zero-padding for the non-negative numbers used by
the date formatter. -/
def pad0 (width : Nat) (s : String) : String :=
  strRepeat "0" (width - s.length) ++ s

/-- Embedding of `chrono_format_date` (`inline.rs` lines 95-137). -/
def chrono_format_date (secs : Int) : String :=
  if secs < 0 then "1970-01-01 (pre-epoch: " ++ toString secs ++ ")"
  else if secs > MAX_SECS then "(invalid timestamp: " ++ toString secs ++ ")"
  else
    let days_since_epoch := Int.tdiv secs 86400
    let yr := yearLoop 1970 days_since_epoch
    let mr := monthLoop (daysInMonths (is_leap_year yr.1)) yr.2 1
    pad0 4 (toString yr.1) ++ "-" ++ pad0 2 (toString mr.1) ++ "-"
      ++ pad0 2 (toString (mr.2 + 1))

/-- Value of a non-empty all-digit character run. -/
def digitsVal : List Char → Option Nat
  | [] => none
  | cs =>
    if cs.all Char.isDigit then
      some (cs.foldl (fun acc c => acc * 10 + (c.toNat - 48)) 0)
    else none

/-- Rust `str::parse::<i64>`: optional sign, then at least one ASCII digit, and
the value must fit in `i64`. -/
def parseI64 (s : String) : Option Int :=
  match s.toList with
  | '+' :: rest =>
    match digitsVal rest with
    | none => none
    | some n => if (n : Int) ≤ 2 ^ 63 - 1 then some (n : Int) else none
  | '-' :: rest =>
    match digitsVal rest with
    | none => none
    | some n => if -(2 ^ 63) ≤ -(n : Int) then some (-(n : Int)) else none
  | cs =>
    match digitsVal cs with
    | none => none
    | some n => if (n : Int) ≤ 2 ^ 63 - 1 then some (n : Int) else none

/-- Embedding of `convert_date` (`inline.rs` lines 75-93). -/
def convert_date (node : JValue) : String :=
  let timestamp :=
    (((node.get "attrs").bind (·.get "timestamp")).bind JValue.asStr).getD ""
  if timestamp = "" then ""
  else
    match parseI64 timestamp with
    | some ts => chrono_format_date (Int.tdiv ts 1000)
    | none => timestamp

/-- Embedding of `convert_status` (`inline.rs` lines 143-164). -/
def convert_status (node : JValue) : String :=
  let attrs := node.get "attrs"
  let text := ((attrs.bind (·.get "text")).bind JValue.asStr).getD "status"
  let color := ((attrs.bind (·.get "color")).bind JValue.asStr).getD "neutral"
  let indicator :=
    match color with
    | "green" => "[OK]"
    | "yellow" => "[WARN]"
    | "red" => "[ERR]"
    | "blue" => "[INFO]"
    | "purple" => "[NOTE]"
    | _ => "[STATUS]"
  indicator ++ " " ++ rustToUppercase text

/-- Embedding of `convert_media_inline` (`inline.rs` lines 166-175). -/
def convert_media_inline (node : JValue) : String :=
  let attrs := node.get "attrs"
  let alt := (((attrs.bind (·.get "alt")).bind JValue.asStr).orElse
    (fun _ => (attrs.bind (·.get "id")).bind JValue.asStr)).getD "media"
  "[Media: " ++ alt ++ "]"

/-- Embedding of `convert_placeholder` (`inline.rs` lines 177-185); the output wraps the
text in literal curly braces. -/
def convert_placeholder (node : JValue) : String :=
  let text := (((node.get "attrs").bind (·.get "text")).bind JValue.asStr).getD "placeholder"
  "\x7b" ++ text ++ "\x7d"

/-- Embedding of `convert_inline_node` (`inline.rs` lines 8-23). -/
def convert_inline_node (node : JValue) : String :=
  let nodeType := ((node.get "type").bind JValue.asStr).getD ""
  match nodeType with
  | "text" => convert_text node
  | "hardBreak" => "\n"
  | "mention" => convert_mention node
  | "emoji" => convert_emoji node
  | "inlineCard" => convert_inline_card node
  | "date" => convert_date node
  | "status" => convert_status node
  | "mediaInline" => convert_media_inline node
  | "placeholder" => convert_placeholder node
  | _ => ""

/-- Embedding of `convert_inline_nodes` (`inline.rs` lines 4-6): concatenation. -/
def convert_inline_nodes (nodes : List JValue) : String :=
  String.join (nodes.map convert_inline_node)

/-! ## Block node renderer — `src/markdown/adf/blocks.rs` -/

/-- Constant `MAX_DEPTH` (`blocks.rs` line 4). -/
def MAX_DEPTH : Nat := 50

/-- The literal truncation marker returned by the depth guard. -/
def truncationMarker : String := "[Content truncated: max depth exceeded]"

/-- Rust `str::trim` on both ends (ASCII whitespace; the Unicode-only whitespace
of the Rust version does not occur in any document considered here). -/
def rustTrim (s : String) : String :=
  ((s.toList.dropWhile Char.isWhitespace).reverse.dropWhile Char.isWhitespace).reverse.asString

/-- Split a character list at every newline; the result always has one more
segment than there are newlines. -/
def splitNlAux : List Char → List (List Char)
  | [] => [[]]
  | c :: rest =>
    if c = '\n' then [] :: splitNlAux rest
    else
      match splitNlAux rest with
      | [] => [[c]]
      | l :: ls => (c :: l) :: ls

/-- Drop one trailing carriage return (for segments terminated by `\n`,
so that `\r\n` endings behave like `\n`). -/
def stripTrailingCR (l : List Char) : List Char :=
  match l.getLast? with
  | some c => if c = '\r' then l.dropLast else l
  | none => l

/-- Rust `str::lines`: split at `\n` (or `\r\n`); a final line ending produces
no trailing empty line. -/
def rustLines (s : String) : List String :=
  let parts := splitNlAux s.toList
  match parts.reverse with
  | [] => []
  | lastPart :: revInit =>
    let initLines := revInit.reverse.map (fun cs => (stripTrailingCR cs).asString)
    if lastPart = [] then initLines
    else initLines ++ [lastPart.asString]

/-- Rust `content.replace('|', "\\|")` used for table cells. -/
def escapePipes (s : String) : String :=
  (s.toList.flatMap (fun c => if c = '|' then ['\\', '|'] else [c])).asString

/-- Size of a value found by object lookup. -/
theorem sizeOf_lookupKV {kvs : List (String × JValue)} {key : String} {v : JValue}
    (h : lookupKV kvs key = some v) : sizeOf v < 1 + sizeOf kvs := by
  induction kvs with
  | nil => simp [lookupKV] at h
  | cons kv rest ih =>
    obtain ⟨k, w⟩ := kv
    simp only [lookupKV] at h
    split at h
    · cases h
      simp only [List.cons.sizeOf_spec, Prod.mk.sizeOf_spec]
      omega
    · have := ih h
      simp only [List.cons.sizeOf_spec, Prod.mk.sizeOf_spec]
      omega

/-- Size of a value found by `Value::get`. -/
theorem sizeOf_get {node : JValue} {key : String} {v : JValue}
    (h : node.get key = some v) : sizeOf v < sizeOf node := by
  cases node with
  | obj kvs =>
    simp only [JValue.get] at h
    have := sizeOf_lookupKV h
    simp only [JValue.obj.sizeOf_spec]
    omega
  | null => simp [JValue.get] at h
  | bool b => simp [JValue.get] at h
  | num n => simp [JValue.get] at h
  | str s => simp [JValue.get] at h
  | arr xs => simp [JValue.get] at h

/-- Size of the element list of an array value. -/
theorem sizeOf_asArr {v : JValue} {l : List JValue}
    (h : v.asArr = some l) : sizeOf l < sizeOf v := by
  cases v with
  | arr xs =>
    simp only [JValue.asArr, Option.some.injEq] at h
    subst h
    simp only [JValue.arr.sizeOf_spec]
    omega
  | null => simp [JValue.asArr] at h
  | bool b => simp [JValue.asArr] at h
  | num n => simp [JValue.asArr] at h
  | str s => simp [JValue.asArr] at h
  | obj kvs => simp [JValue.asArr] at h

/-- The `content` child list of a node is smaller than the node. -/
theorem sizeOf_content_list {node : JValue} {l : List JValue}
    (h : (node.get "content").bind JValue.asArr = some l) :
    sizeOf l < sizeOf node := by
  cases hg : node.get "content" with
  | none => rw [hg] at h; exact absurd h (by simp)
  | some w =>
    rw [hg] at h
    simp only [Option.some_bind] at h
    have h1 := sizeOf_get hg
    have h2 := sizeOf_asArr h
    omega

/-- A member of the `content` child list of a node is smaller than the node. -/
theorem sizeOf_content_mem {node : JValue} {l : List JValue} {x : JValue}
    (h : (node.get "content").bind JValue.asArr = some l) (hx : x ∈ l) :
    sizeOf x < sizeOf node := by
  have h1 := sizeOf_content_list h
  have h2 := List.sizeOf_lt_of_mem hx
  omega

/-- Embedding of `convert_paragraph` (`blocks.rs` lines 58-66). -/
def convert_paragraph (node : JValue) : Option String :=
  match (node.get "content").bind JValue.asArr with
  | none => none
  | some content =>
    let text := convert_inline_nodes content
    if rustTrim text = "" then none else some text

/-- Embedding of `convert_heading` (`blocks.rs` lines 68-83): the level defaults to 1 and
is clamped from above by `min level 6`. -/
def convert_heading (node : JValue) : Option String :=
  let level := (((node.get "attrs").bind (·.get "level")).bind JValue.asU64).getD 1
  match (node.get "content").bind JValue.asArr with
  | none => none
  | some content =>
    let text := convert_inline_nodes content
    if rustTrim text = "" then none
    else some (strRepeat "#" (min level 6) ++ " " ++ text)

/-- Embedding of `convert_code_block` (`blocks.rs` lines 157-177). -/
def convert_code_block (node : JValue) : Option String :=
  let language := (((node.get "attrs").bind (·.get "language")).bind JValue.asStr).getD ""
  let code :=
    match (node.get "content").bind JValue.asArr with
    | none => ""
    | some nodes => String.join (nodes.filterMap (fun n => (n.get "text").bind JValue.asStr))
  some ("```" ++ language ++ "\n" ++ code ++ "\n```")

/-- Embedding of `convert_media` (`blocks.rs` lines 280-294): the first child carrying an
`attrs` object decides the placeholder. -/
def convert_media (node : JValue) : Option String :=
  match (node.get "content").bind JValue.asArr with
  | none => none
  | some content =>
    match content.findSome? (fun media => (media.get "attrs").map (fun attrs =>
        let alt := (((attrs.get "alt").bind JValue.asStr).orElse
          (fun _ => (attrs.get "id").bind JValue.asStr)).getD "media"
        "[Media: " ++ alt ++ "]")) with
    | some s => some s
    | none => some "[Media]"

/-- Embedding of `convert_embed_card` (`blocks.rs` lines 409-418). -/
def convert_embed_card (node : JValue) : Option String :=
  match node.get "attrs" with
  | none => none
  | some attrs =>
    let url := ((attrs.get "url").bind JValue.asStr).getD ""
    if url = "" then some "[Embedded content]"
    else some ("[" ++ url ++ "](" ++ url ++ ")")

mutual

/-- Embedding of `convert_block_node` (`blocks.rs` lines 6-44): the depth guard, then
dispatch on the node type; unknown kinds render their children inside an
unsupported-marker comment or disappear when the children render to
nothing. -/
def convert_block_node (node : JValue) (depth : Nat) : Option String :=
  if depth > MAX_DEPTH then some truncationMarker
  else
    match (node.get "type").bind JValue.asStr with
    | none => none
    | some nodeType =>
      match nodeType with
      | "paragraph" => convert_paragraph node
      | "heading" => convert_heading node
      | "bulletList" => convert_bullet_list node depth
      | "orderedList" => convert_ordered_list node depth
      | "listItem" => convert_list_item node depth
      | "codeBlock" => convert_code_block node
      | "blockquote" => convert_blockquote node
      | "rule" => some "---"
      | "panel" => convert_panel node
      | "table" => convert_table node
      | "mediaSingle" => convert_media node
      | "mediaGroup" => convert_media node
      | "expand" => convert_expand node
      | "nestedExpand" => convert_expand node
      | "taskList" => convert_task_list node
      | "taskItem" => convert_task_item node
      | "decisionList" => convert_decision_list node
      | "decisionItem" => convert_decision_item node
      | "layoutSection" => convert_layout_section node
      | "layoutColumn" => convert_layout_column node
      | "embedCard" => convert_embed_card node
      | "bodiedExtension" => convert_extension node
      | "multiBodiedExtension" => convert_extension node
      | "extensionFrame" => convert_extension_frame node
      | unknown =>
        let content := convert_children node
        if content = "" then none
        else some ("<!-- Unsupported: " ++ unknown ++ " -->\n" ++ content)
termination_by 3 * sizeOf node + 2
decreasing_by all_goals (simp_wf; try omega)

/-- Embedding of `convert_children` (`blocks.rs` lines 46-56): every child rendered at
depth 0 again and joined by blank lines. -/
def convert_children (node : JValue) : String :=
  match h : (node.get "content").bind JValue.asArr with
  | none => ""
  | some arr =>
    String.intercalate "\n\n" (arr.attach.filterMap (fun ⟨c, hc⟩ => convert_block_node c 0))
termination_by 3 * sizeOf node
decreasing_by
  have := sizeOf_content_mem h hc
  simp_wf; try omega

/-- Embedding of `convert_bullet_list` (`blocks.rs` lines 85-100). -/
def convert_bullet_list (node : JValue) (depth : Nat) : Option String :=
  match h : (node.get "content").bind JValue.asArr with
  | none => none
  | some items =>
    let lines := items.attach.filterMap (fun ⟨item, hi⟩ =>
      (convert_list_item item depth).map (fun content =>
        strRepeat "  " depth ++ "- " ++ content))
    if lines.isEmpty then none else some (String.intercalate "\n" lines)
termination_by 3 * sizeOf node
decreasing_by
  have := sizeOf_content_mem h hi
  simp_wf; try omega

/-- Embedding of `convert_ordered_list` (`blocks.rs` lines 102-118). -/
def convert_ordered_list (node : JValue) (depth : Nat) : Option String :=
  match h : (node.get "content").bind JValue.asArr with
  | none => none
  | some items =>
    let lines := ordered_items_loop items 0 depth
    if lines.isEmpty then none else some (String.intercalate "\n" lines)
termination_by 3 * sizeOf node
decreasing_by
  have := sizeOf_content_list h
  simp_wf; try omega

/-- The `enumerate().filter_map(...)` loop of `convert_ordered_list`:
every item consumes an index, rendered or not. -/
def ordered_items_loop (items : List JValue) (i : Nat) (depth : Nat) : List String :=
  match items with
  | [] => []
  | item :: rest =>
    match convert_list_item item depth with
    | none => ordered_items_loop rest (i + 1) depth
    | some content =>
      (strRepeat "  " depth ++ toString (i + 1) ++ ". " ++ content)
        :: ordered_items_loop rest (i + 1) depth
termination_by 3 * sizeOf items
decreasing_by all_goals (simp_wf; try omega)

/-- Embedding of `convert_list_item` (`blocks.rs` lines 120-155): paragraph children join
the same line, nested lists go to following lines at `depth + 1`, everything
else recurses as a block node at `depth + 1`. -/
def convert_list_item (node : JValue) (depth : Nat) : Option String :=
  match h : (node.get "content").bind JValue.asArr with
  | none => none
  | some content =>
    let parts := content.attach.filterMap (fun ⟨c, hc⟩ =>
      match ((c.get "type").bind JValue.asStr).getD "" with
      | "paragraph" => convert_paragraph c
      | "bulletList" => (convert_bullet_list c (depth + 1)).map (fun l => "\n" ++ l)
      | "orderedList" => (convert_ordered_list c (depth + 1)).map (fun l => "\n" ++ l)
      | _ => convert_block_node c (depth + 1))
    if parts.isEmpty then none else some (String.intercalate " " parts)
termination_by 3 * sizeOf node
decreasing_by all_goals (have hsz := sizeOf_content_mem h hc; simp_wf; try omega)

/-- Embedding of `convert_blockquote` (`blocks.rs` lines 179-192): children rendered at
depth 0, then every output line gets a `> ` prefix. -/
def convert_blockquote (node : JValue) : Option String :=
  match h : (node.get "content").bind JValue.asArr with
  | none => none
  | some content =>
    let lines := (content.attach.filterMap (fun ⟨c, hc⟩ => convert_block_node c 0)).flatMap
      (fun text => (rustLines text).map (fun l => "> " ++ l))
    if lines.isEmpty then none else some (String.intercalate "\n" lines)
termination_by 3 * sizeOf node
decreasing_by
  have := sizeOf_content_mem h hc
  simp_wf; try omega

/-- Embedding of `convert_panel` (`blocks.rs` lines 194-213). -/
def convert_panel (node : JValue) : Option String :=
  let panelType := rustToUppercase
    ((((node.get "attrs").bind (·.get "panelType")).bind JValue.asStr).getD "info")
  match h : (node.get "content").bind JValue.asArr with
  | none => none
  | some content =>
    let text := content.attach.filterMap (fun ⟨c, hc⟩ => convert_block_node c 0)
    if text.isEmpty then none
    else some ("> **" ++ panelType ++ "**: " ++ String.intercalate " " text)
termination_by 3 * sizeOf node
decreasing_by
  have := sizeOf_content_mem h hc
  simp_wf; try omega

/-- Embedding of `convert_table` (`blocks.rs` lines 215-261). -/
def convert_table (node : JValue) : Option String :=
  match h : (node.get "content").bind JValue.asArr with
  | none => none
  | some rows =>
    if rows.isEmpty then none
    else (table_rows_loop rows true).map (String.intercalate "\n")
termination_by 3 * sizeOf node
decreasing_by
  have := sizeOf_content_list h
  simp_wf; try omega

/-- The `for row in rows` loop of `convert_table`: a row without a cell
array aborts the whole table (the `?` inside the loop); the first row also
emits the `---` separator line sized by its own column count. -/
def table_rows_loop (rows : List JValue) (isFirstRow : Bool) : Option (List String) :=
  match rows with
  | [] => some []
  | row :: rest =>
    match h : (row.get "content").bind JValue.asArr with
    | none => none
    | some cells =>
      let rowCells := cells.attach.flatMap (fun ⟨c, hc⟩ => cell_columns c)
      let line := "| " ++ String.intercalate " | " rowCells ++ " |"
      let firstPart :=
        if isFirstRow then
          [line, "| " ++ String.intercalate " | " (List.replicate rowCells.length "---") ++ " |"]
        else [line]
      (table_rows_loop rest false).map (fun tail => firstPart ++ tail)
termination_by 3 * sizeOf rows
decreasing_by
  all_goals simp_wf
  all_goals try omega
  all_goals (have hsz := sizeOf_content_mem h hc; omega)

/-- The `for i in 0..colspan` expansion of one cell (`blocks.rs`
lines 229-245): the rendered content in column 0, empty padding after. -/
def cell_columns (cell : JValue) : List String :=
  let colspan := (((cell.get "attrs").bind (·.get "colspan")).bind JValue.asU64).getD 1
  let content := convert_cell_content cell
  (List.range colspan).map (fun i => if i = 0 then content else "")
termination_by 3 * sizeOf cell + 1
decreasing_by simp_wf; try omega

/-- Embedding of `convert_cell_content` (`blocks.rs` lines 263-278): block children at
depth 0 joined by spaces, pipes escaped. -/
def convert_cell_content (cell : JValue) : String :=
  let content :=
    match h : (cell.get "content").bind JValue.asArr with
    | none => ""
    | some content =>
      String.intercalate " " (content.attach.filterMap (fun ⟨n, hn⟩ => convert_block_node n 0))
  escapePipes content
termination_by 3 * sizeOf cell
decreasing_by
  have := sizeOf_content_mem h hn
  simp_wf; try omega

/-- Embedding of `convert_expand` (`blocks.rs` lines 296-314). -/
def convert_expand (node : JValue) : Option String :=
  let title := (((node.get "attrs").bind (·.get "title")).bind JValue.asStr).getD "Details"
  match h : (node.get "content").bind JValue.asArr with
  | none => none
  | some content =>
    let text := content.attach.filterMap (fun ⟨c, hc⟩ => convert_block_node c 0)
    if text.isEmpty then none
    else some ("**" ++ title ++ "**\n\n" ++ String.intercalate "\n\n" text)
termination_by 3 * sizeOf node
decreasing_by
  have := sizeOf_content_mem h hc
  simp_wf; try omega

/-- Embedding of `convert_task_list` (`blocks.rs` lines 316-325). -/
def convert_task_list (node : JValue) : Option String :=
  match h : (node.get "content").bind JValue.asArr with
  | none => none
  | some items =>
    let lines := items.attach.filterMap (fun ⟨item, hi⟩ => convert_task_item item)
    if lines.isEmpty then none else some (String.intercalate "\n" lines)
termination_by 3 * sizeOf node
decreasing_by
  have := sizeOf_content_mem h hi
  simp_wf; try omega

/-- Embedding of `convert_task_item` (`blocks.rs` lines 327-348). -/
def convert_task_item (node : JValue) : Option String :=
  let state := (((node.get "attrs").bind (·.get "state")).bind JValue.asStr).getD "TODO"
  let checkbox := if state = "DONE" then "[x]" else "[ ]"
  let content :=
    match h : (node.get "content").bind JValue.asArr with
    | none => ""
    | some arr =>
      String.intercalate " " (arr.attach.filterMap (fun ⟨c, hc⟩ => convert_block_node c 0))
  some ("- " ++ checkbox ++ " " ++ content)
termination_by 3 * sizeOf node
decreasing_by
  have := sizeOf_content_mem h hc
  simp_wf; try omega

/-- Embedding of `convert_decision_list` (`blocks.rs` lines 350-359). -/
def convert_decision_list (node : JValue) : Option String :=
  match h : (node.get "content").bind JValue.asArr with
  | none => none
  | some items =>
    let lines := items.attach.filterMap (fun ⟨item, hi⟩ => convert_decision_item item)
    if lines.isEmpty then none else some (String.intercalate "\n" lines)
termination_by 3 * sizeOf node
decreasing_by
  have := sizeOf_content_mem h hi
  simp_wf; try omega

/-- Embedding of `convert_decision_item` (`blocks.rs` lines 361-382). -/
def convert_decision_item (node : JValue) : Option String :=
  let state := (((node.get "attrs").bind (·.get "state")).bind JValue.asStr).getD "DECIDED"
  let icon := if state = "DECIDED" then "[x]" else "[ ]"
  let content :=
    match h : (node.get "content").bind JValue.asArr with
    | none => ""
    | some arr =>
      String.intercalate " " (arr.attach.filterMap (fun ⟨c, hc⟩ => convert_block_node c 0))
  some ("- " ++ icon ++ " " ++ content)
termination_by 3 * sizeOf node
decreasing_by
  have := sizeOf_content_mem h hc
  simp_wf; try omega

/-- Embedding of `convert_layout_section` (`blocks.rs` lines 384-393). -/
def convert_layout_section (node : JValue) : Option String :=
  match h : (node.get "content").bind JValue.asArr with
  | none => none
  | some content =>
    let columns := content.attach.filterMap (fun ⟨c, hc⟩ => convert_layout_column c)
    if columns.isEmpty then none
    else some (String.intercalate "\n\n---\n\n" columns)
termination_by 3 * sizeOf node
decreasing_by
  have := sizeOf_content_mem h hc
  simp_wf; try omega

/-- Embedding of `convert_layout_column` (`blocks.rs` lines 395-407). -/
def convert_layout_column (node : JValue) : Option String :=
  match h : (node.get "content").bind JValue.asArr with
  | none => none
  | some content =>
    let text := content.attach.filterMap (fun ⟨c, hc⟩ => convert_block_node c 0)
    if text.isEmpty then none else some (String.intercalate "\n\n" text)
termination_by 3 * sizeOf node
decreasing_by
  have := sizeOf_content_mem h hc
  simp_wf; try omega

/-- Embedding of `convert_extension` (`blocks.rs` lines 420-433). -/
def convert_extension (node : JValue) : Option String :=
  let extensionType :=
    (((node.get "attrs").bind (·.get "extensionType")).bind JValue.asStr).getD "extension"
  let content := convert_children node
  if content = "" then some ("[Extension: " ++ extensionType ++ "]")
  else some content
termination_by 3 * sizeOf node + 1
decreasing_by simp_wf; try omega

/-- Embedding of `convert_extension_frame` (`blocks.rs` lines 435-437): `.into()` wraps
the (possibly empty) children rendering in `Some`. -/
def convert_extension_frame (node : JValue) : Option String :=
  some (convert_children node)
termination_by 3 * sizeOf node + 1
decreasing_by simp_wf; try omega

end

/-! ## Whitespace normalizer — `src/markdown/common.rs` -/

/-- The line loop of `normalize_whitespace`: blank lines collapse to a
single empty line, other lines pass through. -/
def nw_collapse : List String → Bool → List String
  | [], _ => []
  | l :: rest, prevEmpty =>
    if rustTrim l = "" then
      if prevEmpty then nw_collapse rest true
      else "" :: nw_collapse rest true
    else l :: nw_collapse rest false

/-- Embedding of `normalize_whitespace` (`common.rs` lines 1-34).  Dropping empty lines
from both ends is the `lines[start..end]` slice of the source: after the
collapse pass a stored line is the empty string exactly when it came from a
blank run. -/
def normalize_whitespace (text : String) : String :=
  let lines := nw_collapse (rustLines text) false
  let trimmed := ((lines.dropWhile (· = "")).reverse.dropWhile (· = "")).reverse
  String.intercalate "\n" trimmed

/-! ## Document renderer — `src/markdown/adf/mod.rs` -/

/-- Embedding of `adf_to_markdown` (`mod.rs` lines 8-19). -/
def adf_to_markdown (adf : JValue) : String :=
  match (adf.get "content").bind JValue.asArr with
  | none => ""
  | some content =>
    normalize_whitespace
      (String.intercalate "\n\n" (content.filterMap (fun node => convert_block_node node 0)))

/-! ## Document envelope validator — `src/jira/adf.rs` `validate_adf` -/

/-- Embedding of `validate_adf` (`adf.rs` lines 14-50): top-level envelope checks only. -/
def validate_adf (value : JValue) : Except String Unit :=
  match value with
  | .obj kvs =>
    match (lookupKV kvs "type").bind JValue.asStr with
    | none => .error "Invalid ADF: missing required field \x27type\x27"
    | some docType =>
      if docType ≠ "doc" then
        .error ("Invalid ADF: type must be \x27doc\x27, got \x27" ++ docType ++ "\x27")
      else
        match (lookupKV kvs "version").bind JValue.asI64 with
        | none => .error "Invalid ADF: missing required field \x27version\x27"
        | some version =>
          if version ≠ 1 then
            .error ("Invalid ADF: version must be 1, got " ++ toString version)
          else
            match lookupKV kvs "content" with
            | none => .error "Invalid ADF: missing required field \x27content\x27"
            | some content =>
              if ¬content.isArr then .error "Invalid ADF: content must be array"
              else .ok ()
  | _ => .error "Invalid ADF: must be an object"

/-! ## Markdown -> ADF builder — `src/jira/adf.rs` `markdown_to_adf`

The builder consumes a stream of pulldown-cmark events.  The event stream
itself comes from the external `pulldown_cmark` crate, which is not part of
this repository; the builder loop below is embedded from the source, while
the event streams fed to it are modelled from the spec (see `parseEvents`).
-/

/-- The pulldown-cmark `Tag` constructors the builder inspects; every other
start tag falls into `other` and is ignored (`_ => {}`). -/
inductive MdTag where
  | paragraph
  | heading (level : Nat)
  | blockQuote
  | codeBlockFenced (lang : String)
  | codeBlockIndented
  | list (firstItem : Option Nat)
  | item
  | table
  | tableHead
  | tableRow
  | tableCell
  | emphasis
  | strong
  | strikethrough
  | link (destUrl : String)
  | image (destUrl : String)
  | other

/-- The pulldown-cmark `TagEnd` constructors the builder inspects. -/
inductive MdTagEnd where
  | paragraph
  | heading
  | blockQuote
  | codeBlock
  | list
  | item
  | table
  | tableHead
  | tableRow
  | tableCell
  | emphasis
  | strong
  | strikethrough
  | link
  | image
  | other
deriving DecidableEq

/-- The pulldown-cmark `Event` constructors the builder inspects
(`stop` stands for `Event::End`; `html` covers the ignored event kinds:
raw HTML, footnotes, math, metadata). -/
inductive MdEvent where
  | start (tag : MdTag)
  | stop (tag : MdTagEnd)
  | text (s : String)
  | code (s : String)
  | softBreak
  | hardBreak
  | rule
  | taskListMarker (checked : Bool)
  | html

/-- Embedding of `is_block_node` (`adf.rs` lines 65-79). -/
def is_block_node (node : JValue) : Bool :=
  match (node.get "type").bind JValue.asStr with
  | some "paragraph" => true
  | some "heading" => true
  | some "bulletList" => true
  | some "orderedList" => true
  | some "codeBlock" => true
  | some "blockquote" => true
  | some "rule" => true
  | some "table" => true
  | _ => false

/-- Embedding of `wrap_inline_in_paragraphs` (`adf.rs` lines 83-104): consecutive inline
children are grouped into synthesized paragraphs, block children split the
groups. -/
def wrap_inline_in_paragraphs (children : List JValue) : List JValue :=
  let step := fun (acc : List JValue × List JValue) (child : JValue) =>
    if is_block_node child then
      if acc.2.isEmpty then (acc.1 ++ [child], ([] : List JValue))
      else
        (acc.1 ++ [JValue.obj [("type", .str "paragraph"), ("content", .arr acc.2)], child], [])
    else (acc.1, acc.2 ++ [child])
  let fin := children.foldl step ([], [])
  if fin.2.isEmpty then fin.1
  else fin.1 ++ [JValue.obj [("type", .str "paragraph"), ("content", .arr fin.2)]]

/-- Builder state: the frame stack (top first), the collected top-level
nodes, the active mark list and the table-head flag. -/
structure BuildState where
  stack : List (JValue × List JValue)
  docContent : List JValue
  marks : List JValue
  inTableHead : Bool

/-- Remove the most recently pushed mark of the given type
(`marks.iter().rposition(...)` followed by `marks.remove(pos)`). -/
def removeLastMatchingAux : List JValue → String → Option (List JValue)
  | [], _ => none
  | m :: rest, t =>
    if ((m.get "type").bind JValue.asStr) = some t then some rest
    else (removeLastMatchingAux rest t).map (fun r => m :: r)

/-- Remove the last mark of type `t`, or leave the list unchanged. -/
def removeLastMatching (marks : List JValue) (t : String) : List JValue :=
  match removeLastMatchingAux marks.reverse t with
  | some r => r.reverse
  | none => marks

/-- One iteration of the `for event in parser` loop of `markdown_to_adf`
(`adf.rs` lines 128-341). -/
def markdown_step (st : BuildState) (event : MdEvent) : BuildState :=
  match event with
  | .start tag =>
    match tag with
    | .paragraph =>
      { st with stack := (JValue.obj [("type", .str "paragraph")], []) :: st.stack }
    | .heading level =>
      { st with stack := (JValue.obj [("type", .str "heading"),
          ("attrs", .obj [("level", .num (.int level))])], []) :: st.stack }
    | .blockQuote =>
      { st with stack := (JValue.obj [("type", .str "blockquote")], []) :: st.stack }
    | .codeBlockFenced lang =>
      let node := if lang = "" then JValue.obj [("type", .str "codeBlock")]
        else JValue.obj [("type", .str "codeBlock"), ("attrs", .obj [("language", .str lang)])]
      { st with stack := (node, []) :: st.stack }
    | .codeBlockIndented =>
      { st with stack := (JValue.obj [("type", .str "codeBlock")], []) :: st.stack }
    | .list firstItem =>
      let node := if firstItem.isSome then JValue.obj [("type", .str "orderedList")]
        else JValue.obj [("type", .str "bulletList")]
      { st with stack := (node, []) :: st.stack }
    | .item =>
      { st with stack := (JValue.obj [("type", .str "listItem")], []) :: st.stack }
    | .table =>
      { st with stack := (JValue.obj [("type", .str "table")], []) :: st.stack }
    | .tableHead =>
      { st with
          inTableHead := true
          stack := (JValue.obj [("type", .str "tableRow")], []) :: st.stack }
    | .tableRow =>
      { st with stack := (JValue.obj [("type", .str "tableRow")], []) :: st.stack }
    | .tableCell =>
      let cellType := if st.inTableHead then "tableHeader" else "tableCell"
      { st with stack := (JValue.obj [("type", .str cellType)], []) :: st.stack }
    | .emphasis => { st with marks := st.marks ++ [mkMark "em"] }
    | .strong => { st with marks := st.marks ++ [mkMark "strong"] }
    | .strikethrough => { st with marks := st.marks ++ [mkMark "strike"] }
    | .link destUrl =>
      { st with marks := st.marks ++
          [JValue.obj [("type", .str "link"), ("attrs", .obj [("href", .str destUrl)])]] }
    | .image destUrl =>
      { st with marks := st.marks ++
          [JValue.obj [("type", .str "link"), ("attrs", .obj [("href", .str destUrl)])]] }
    | .other => st
  | .stop tagEnd =>
    match tagEnd with
    | .emphasis => { st with marks := removeLastMatching st.marks "em" }
    | .strong => { st with marks := removeLastMatching st.marks "strong" }
    | .strikethrough => { st with marks := removeLastMatching st.marks "strike" }
    | .link => { st with marks := removeLastMatching st.marks "link" }
    | .image => { st with marks := removeLastMatching st.marks "link" }
    | .other => st
    | _ =>
      let st := if tagEnd = .tableHead then { st with inTableHead := false } else st
      match st.stack with
      | [] => st
      | (node, children) :: restStack =>
        let needsBlockWrap := tagEnd = .item ∨ tagEnd = .tableCell
        let finalChildren :=
          if needsBlockWrap ∧ ¬children.isEmpty then wrap_inline_in_paragraphs children
          else children
        let node :=
          if ¬finalChildren.isEmpty then node.setKey "content" (.arr finalChildren)
          else node
        match restStack with
        | (pnode, pchildren) :: rest2 =>
          { st with stack := (pnode, pchildren ++ [node]) :: rest2 }
        | [] => { st with stack := [], docContent := st.docContent ++ [node] }
  | .text s =>
    let node := if st.marks.isEmpty then JValue.obj [("type", .str "text"), ("text", .str s)]
      else JValue.obj [("type", .str "text"), ("text", .str s), ("marks", .arr st.marks)]
    match st.stack with
    | (pnode, pchildren) :: rest => { st with stack := (pnode, pchildren ++ [node]) :: rest }
    | [] => { st with docContent := st.docContent ++
        [JValue.obj [("type", .str "paragraph"), ("content", .arr [node])]] }
  | .code s =>
    let codeMarks := st.marks ++ [mkMark "code"]
    let node := JValue.obj [("type", .str "text"), ("text", .str s), ("marks", .arr codeMarks)]
    match st.stack with
    | (pnode, pchildren) :: rest => { st with stack := (pnode, pchildren ++ [node]) :: rest }
    | [] => { st with docContent := st.docContent ++
        [JValue.obj [("type", .str "paragraph"), ("content", .arr [node])]] }
  | .softBreak =>
    let node := JValue.obj [("type", .str "text"), ("text", .str " ")]
    match st.stack with
    | (pnode, pchildren) :: rest => { st with stack := (pnode, pchildren ++ [node]) :: rest }
    | [] => st
  | .hardBreak =>
    let node := JValue.obj [("type", .str "hardBreak")]
    match st.stack with
    | (pnode, pchildren) :: rest => { st with stack := (pnode, pchildren ++ [node]) :: rest }
    | [] => st
  | .rule =>
    let node := JValue.obj [("type", .str "rule")]
    match st.stack with
    | (pnode, pchildren) :: rest => { st with stack := (pnode, pchildren ++ [node]) :: rest }
    | [] => { st with docContent := st.docContent ++ [node] }
  | .taskListMarker checked =>
    let marker := if checked then "[x] " else "[ ] "
    let node := JValue.obj [("type", .str "text"), ("text", .str marker)]
    match st.stack with
    | (pnode, pchildren) :: rest => { st with stack := (pnode, pchildren ++ [node]) :: rest }
    | [] => st
  | .html => st

/-- The document envelope built at the end of `markdown_to_adf`
(`adf.rs` lines 344-348). -/
def mkDoc (content : List JValue) : JValue :=
  .obj [("type", .str "doc"), ("version", .num (.int 1)), ("content", .arr content)]

/-- Initial builder state. -/
def initial_build_state : BuildState :=
  ⟨[], [], [], false⟩

/-- The builder of `markdown_to_adf` as a function of the event stream. -/
def buildFromEvents (events : List MdEvent) : JValue :=
  mkDoc (events.foldl markdown_step initial_build_state).docContent

/-- Blank input: nothing but whitespace, for which the Markdown parser
emits no events. -/
def isBlankInput (s : String) : Bool :=
  s.toList.all Char.isWhitespace

/-- Characters that carry no Markdown meaning in any position. -/
def isPlainChar (c : Char) : Bool :=
  c.isAlphanum || c = ' ' || c = ',' || c = '?' || decide (127 < c.toNat)

/-- A conservative class of plain strings with no Markdown syntax: first
character an ASCII letter, every character alphanumeric, space, comma,
question mark or non-ASCII, and no trailing space. -/
def isPlainText (s : String) : Bool :=
  match s.toList with
  | [] => false
  | c :: rest =>
    c.isAlpha && decide (c.toNat < 128) && rest.all isPlainChar
      && !((c :: rest).getLastD 'x' == ' ')

/-- The concrete Markdown document of the construct-then-render scenario. -/
def c4_markdown : String := "## Title\n\nThe **API** returned `500`."

/-- The pulldown-cmark event stream for `c4_markdown`: a level-2 heading
with the text `Title`, then one paragraph mixing plain text, a strong span
and an inline-code span. -/
def c4_events : List MdEvent :=
  [.start (.heading 2), .text "Title", .stop .heading,
   .start .paragraph, .text "The ", .start .strong, .text "API", .stop .strong,
   .text " returned ", .code "500", .text ".", .stop .paragraph]

/-- Modelled from the spec: the event stream of the external GFM Markdown
parser (`pulldown_cmark`, not part of this repository).  The spec fixes its
behaviour on the fragments the properties need: blank input emits no
events; a plain string with no Markdown syntax emits one paragraph holding
one text event with the string verbatim; and the concrete scenario document
`c4_markdown` emits `c4_events`.  Outside the modelled fragment the stream
is left unspecified (`none`). -/
def parseEvents (s : String) : Option (List MdEvent) :=
  if isPlainText s then some [.start .paragraph, .text s, .stop .paragraph]
  else if isBlankInput s then some []
  else if s = c4_markdown then some c4_events
  else none

/-- The function `markdown_to_adf` restricted to the modelled parser fragment: the
faithful builder applied to the spec-modelled event stream. -/
def markdown_to_adf (s : String) : Option JValue :=
  (parseEvents s).map buildFromEvents

/-- Total `text_to_adf` over the modelled fragment (outside the fragment
the event stream defaults to empty, which the dispatcher claims never
exercise). -/
def text_to_adf_model (s : String) : JValue :=
  buildFromEvents ((parseEvents s).getD [])

mutual

/-- serde_json `Debug` rendering of a value (used in the dispatcher error
message `got {:?}`). -/
def debugRepr : JValue → String
  | .null => "Null"
  | .bool true => "Bool(true)"
  | .bool false => "Bool(false)"
  | .num (.int n) => "Number(" ++ toString n ++ ")"
  | .num (.float r) => "Number(" ++ r ++ ")"
  | .str s => "String(\"" ++ s ++ "\")"
  | .arr xs => "Array [" ++ debugReprItems xs ++ "]"
  | .obj kvs => "Object \x7b" ++ debugReprPairs kvs ++ "\x7d"

/-- Comma-separated `Debug` items of an array. -/
def debugReprItems : List JValue → String
  | [] => ""
  | [x] => debugRepr x
  | x :: rest => debugRepr x ++ ", " ++ debugReprItems rest

/-- Comma-separated `Debug` pairs of an object. -/
def debugReprPairs : List (String × JValue) → String
  | [] => ""
  | [(k, v)] => "\"" ++ k ++ "\": " ++ debugRepr v
  | (k, v) :: rest => "\"" ++ k ++ "\": " ++ debugRepr v ++ ", " ++ debugReprPairs rest

end

/-- Embedding of `process_adf_input` (`adf.rs` lines 391-415): strings go through the
Markdown builder, objects are validated and passed through unchanged, null
becomes the empty-input document, everything else is an error naming the
field. -/
def process_adf_input (value : JValue) (fieldName : String) : Except String JValue :=
  match value with
  | .str text => .ok (text_to_adf_model text)
  | .obj kvs =>
    match validate_adf (.obj kvs) with
    | .error e => .error e
    | .ok _ => .ok (.obj kvs)
  | .null => .ok (text_to_adf_model "")
  | other => .error (fieldName ++ " must be string or ADF object, got " ++ debugRepr other)

/-! ## Concrete document families used by the depth-guard analysis -/

/-- A paragraph holding the single text `x`. -/
def leafParagraph : JValue :=
  .obj [("type", .str "paragraph"),
        ("content", .arr [.obj [("type", .str "text"), ("text", .str "x")]])]

/-- Family of `n` nested blockquotes around `leafParagraph`. -/
def nestBQ : Nat → JValue
  | 0 => leafParagraph
  | n + 1 => .obj [("type", .str "blockquote"), ("content", .arr [nestBQ n])]

/-- The expected blockquote rendering: `n` `> ` prefixes before `x`. -/
def bqString : Nat → String
  | 0 => "x"
  | n + 1 => "> " ++ bqString n

/-- Family of `n` nested list items around `leafParagraph`. -/
def nestLI : Nat → JValue
  | 0 => leafParagraph
  | n + 1 => .obj [("type", .str "listItem"), ("content", .arr [nestLI n])]

/-! ## Claim-side definitions used by the theorems below -/

/-- The envelope shape the spec declares valid: an object whose `type` is
exactly the string `doc`, whose `version` is the integer 1 and whose
`content` is an array. -/
def goodEnvelope (v : JValue) : Prop :=
  ∃ kvs, v = JValue.obj kvs ∧
    lookupKV kvs "type" = some (.str "doc") ∧
    lookupKV kvs "version" = some (.num (.int 1)) ∧
    ∃ l, lookupKV kvs "content" = some (.arr l)

/-- The dangerous-scheme test of `format_link`, as the claim states it:
the lowercased href starts with `javascript:`, `vbscript:` or `data:`. -/
def dangerousScheme (href : String) : Bool :=
  strStartsWith (rustToLowercase href) "javascript:"
    || strStartsWith (rustToLowercase href) "vbscript:"
    || strStartsWith (rustToLowercase href) "data:"

/-- The line the claim assigns to one table row: the colspan-expanded,
pipe-escaped cells joined by ` | ` inside outer pipes. -/
def spec_row_line (row : JValue) : String :=
  "| " ++ String.intercalate " | "
    ((((row.get "content").bind JValue.asArr).getD []).flatMap cell_columns) ++ " |"

/-- The separator line the claim assigns to the first row: one `---` per
expanded column of that row. -/
def spec_separator (row : JValue) : String :=
  "| " ++ String.intercalate " | "
    (List.replicate ((((row.get "content").bind JValue.asArr).getD []).flatMap
      cell_columns).length "---") ++ " |"

/-- A text inline node. -/
def mkTextNode (s : String) : JValue :=
  .obj [("type", .str "text"), ("text", .str s)]

/-- A paragraph holding one text node. -/
def mkParagraphNode (s : String) : JValue :=
  .obj [("type", .str "paragraph"), ("content", .arr [mkTextNode s])]

/-- A table cell of the given kind holding one paragraph. -/
def mkCellNode (kind s : String) : JValue :=
  .obj [("type", .str kind), ("content", .arr [mkParagraphNode s])]

/-- The 2-column-header, one-data-row table of the claim scenario, with
header cells of kind `tableHeader` and data cells of kind `tableCell`. -/
def c8ConcreteTable : JValue :=
  .obj [("type", .str "table"), ("content", .arr [
    .obj [("type", .str "tableRow"),
      ("content", .arr [mkCellNode "tableHeader" "A", mkCellNode "tableHeader" "B"])],
    .obj [("type", .str "tableRow"),
      ("content", .arr [mkCellNode "tableCell" "1", mkCellNode "tableCell" "2"])]])]

/-- The heading node the builder produces for `## Title`. -/
def c4_heading_node : JValue :=
  .obj [("type", .str "heading"), ("attrs", .obj [("level", .num (.int 2))]),
        ("content", .arr [mkTextNode "Title"])]

/-- The paragraph node the builder produces for the second line. -/
def c4_paragraph_node : JValue :=
  .obj [("type", .str "paragraph"), ("content", .arr [
    mkTextNode "The ",
    .obj [("type", .str "text"), ("text", .str "API"), ("marks", .arr [mkMark "strong"])],
    mkTextNode " returned ",
    .obj [("type", .str "text"), ("text", .str "500"), ("marks", .arr [mkMark "code"])],
    mkTextNode "."])]

/-! # Claim theorems -/

/-! ## C2 — document envelope validator -/

theorem bind_asStr_eq (o : Option JValue) (s : String) :
    o.bind JValue.asStr = some s ↔ o = some (.str s) := by
  cases o with
  | none => simp
  | some v => cases v <;> simp [JValue.asStr]

theorem asI64_eq_one (v : JValue) : JValue.asI64 v = some 1 ↔ v = .num (.int 1) := by
  cases v with
  | num n =>
    cases n with
    | int m =>
      by_cases hm : m = 1
      · subst hm; simp [JValue.asI64]
      · simp only [JValue.asI64]; split_ifs <;> simp [hm]
    | float r => simp [JValue.asI64]
  | null => simp [JValue.asI64]
  | bool b => simp [JValue.asI64]
  | str s => simp [JValue.asI64]
  | arr xs => simp [JValue.asI64]
  | obj kvs => simp [JValue.asI64]

theorem bind_asI64_eq_one (o : Option JValue) :
    o.bind JValue.asI64 = some 1 ↔ o = some (.num (.int 1)) := by
  cases o with
  | none => simp
  | some v => simpa using asI64_eq_one v

theorem validate_adf_obj (kvs : List (String × JValue)) :
    validate_adf (JValue.obj kvs) = .ok () ↔
      ((lookupKV kvs "type").bind JValue.asStr = some "doc" ∧
       (lookupKV kvs "version").bind JValue.asI64 = some 1 ∧
       ∃ content, lookupKV kvs "content" = some content ∧ content.isArr = true) := by
  rcases ht : (lookupKV kvs "type").bind JValue.asStr with _ | docType
  · simp [validate_adf, ht]
  · rcases hv : (lookupKV kvs "version").bind JValue.asI64 with _ | version
    · by_cases hdoc : docType = "doc" <;> simp [validate_adf, ht, hv, hdoc]
    · rcases hc : lookupKV kvs "content" with _ | content
      · by_cases hdoc : docType = "doc" <;> by_cases hone : version = 1 <;>
          simp [validate_adf, ht, hv, hc, hdoc, hone]
      · by_cases hdoc : docType = "doc" <;> by_cases hone : version = 1 <;>
          by_cases harr : content.isArr <;>
          simp [validate_adf, ht, hv, hc, hdoc, hone, harr]

theorem validate_adf_ok_iff (v : JValue) :
    validate_adf v = .ok () ↔ goodEnvelope v := by
  cases v with
  | obj kvs =>
    rw [validate_adf_obj]
    unfold goodEnvelope
    constructor
    · rintro ⟨ht, hv, content, hc, harr⟩
      refine ⟨kvs, rfl, (bind_asStr_eq _ _).1 ht, (bind_asI64_eq_one _).1 hv, ?_⟩
      cases content <;> simp [JValue.isArr] at harr
      case arr xs => exact ⟨xs, hc⟩
    · rintro ⟨kvs2, heq, ht, hv, l, hc⟩
      injection heq with heq
      subst heq
      exact ⟨(bind_asStr_eq _ _).2 ht, (bind_asI64_eq_one _).2 hv, _, hc, rfl⟩
  | null => simp [validate_adf, goodEnvelope]
  | bool b => simp [validate_adf, goodEnvelope]
  | num n => simp [validate_adf, goodEnvelope]
  | str s => simp [validate_adf, goodEnvelope]
  | arr xs => simp [validate_adf, goodEnvelope]

/-- C2 counterexample: a `type` field that is present but carries a
non-string value (here the number 42) is rejected with the missing-field
reason, not the wrong-type reason the claim assigns to every present
non-`"doc"` type. -/
theorem c2_counterexample :
    validate_adf (.obj [("type", .num (.int 42)), ("version", .num (.int 1)),
        ("content", .arr [])])
      = .error "Invalid ADF: missing required field \x27type\x27" ∧
    "Invalid ADF: missing required field \x27type\x27"
      ≠ "Invalid ADF: type must be \x27doc\x27, got \x2742\x27" := by
  refine ⟨rfl, by decide⟩

/-- C2 (amended): `validate_adf` succeeds exactly on the good envelope
shape; version `1.0`, version `"1"`, version `0`, version `-1`, a
non-object top level, a missing or *non-string* `type`, a string `type`
other than `doc`, and a missing or non-array `content` are each rejected
with the reason the source assigns; a present but non-string `type` falls
under the missing-field reason. -/
theorem c2_validate_adf :
    (∀ v, validate_adf v = .ok () ↔ goodEnvelope v) ∧
    validate_adf (.str "not an object") = .error "Invalid ADF: must be an object" ∧
    validate_adf (.obj [("version", .num (.int 1)), ("content", .arr [])])
      = .error "Invalid ADF: missing required field \x27type\x27" ∧
    validate_adf (.obj [("type", .str "paragraph"), ("version", .num (.int 1)),
        ("content", .arr [])])
      = .error "Invalid ADF: type must be \x27doc\x27, got \x27paragraph\x27" ∧
    validate_adf (.obj [("type", .num (.int 42)), ("version", .num (.int 1)),
        ("content", .arr [])])
      = .error "Invalid ADF: missing required field \x27type\x27" ∧
    validate_adf (.obj [("type", .str "doc"), ("version", .num (.float "1.0")),
        ("content", .arr [])])
      = .error "Invalid ADF: missing required field \x27version\x27" ∧
    validate_adf (.obj [("type", .str "doc"), ("version", .str "1"), ("content", .arr [])])
      = .error "Invalid ADF: missing required field \x27version\x27" ∧
    validate_adf (.obj [("type", .str "doc"), ("version", .num (.int 0)), ("content", .arr [])])
      = .error "Invalid ADF: version must be 1, got 0" ∧
    validate_adf (.obj [("type", .str "doc"), ("version", .num (.int (-1))),
        ("content", .arr [])])
      = .error "Invalid ADF: version must be 1, got -1" ∧
    validate_adf (.obj [("type", .str "doc"), ("version", .num (.int 1))])
      = .error "Invalid ADF: missing required field \x27content\x27" ∧
    validate_adf (.obj [("type", .str "doc"), ("version", .num (.int 1)),
        ("content", .str "oops")])
      = .error "Invalid ADF: content must be array" := by
  exact ⟨validate_adf_ok_iff, rfl, rfl, rfl, rfl, rfl, rfl, rfl, rfl, rfl, rfl⟩

/-! ## C5 — mark application order -/

/-- C5: marks are applied in listed order — the engine is the fold of the
single-mark wrapper, so the head mark is applied first and the last-listed
mark wraps the entire previous result (outermost); `[strong, em]` on
`"text"` yields `"***text***"`. -/
theorem c5_mark_order :
    (∀ (t : String) (ms : List JValue) (m : JValue),
        apply_marks t (some (ms ++ [m])) = apply_one (apply_marks t (some ms)) m) ∧
    (∀ (t : String) (m : JValue) (ms : List JValue),
        apply_marks t (some (m :: ms)) = apply_marks (apply_one t m) (some ms)) ∧
    apply_marks "text" (some [mkMark "strong", mkMark "em"]) = "***text***" := by
  refine ⟨?_, ?_, rfl⟩
  · intro t ms m
    simp [apply_marks, List.foldl_append]
  · intro t m ms
    simp [apply_marks]

/-! ## C6 — link sanitization -/

/-- C6: a link mark whose href has a dangerous scheme (case-insensitively
`javascript:`, `vbscript:` or `data:`) is dropped and the text returned
unchanged; any other non-empty href renders `[text](href)`, with the
quoted title suffix when a `title` attribute is present; the mark engine
routes a link mark to `format_link`. -/
theorem c6_link_sanitization :
    (∀ (text : String) (attrs : Option JValue) (href : String),
        (attrs.bind (·.get "href")).bind JValue.asStr = some href →
        dangerousScheme href = true →
        format_link text attrs = text) ∧
    (∀ (text : String) (attrs : Option JValue) (href : String),
        (attrs.bind (·.get "href")).bind JValue.asStr = some href →
        href ≠ "" →
        dangerousScheme href = false →
        format_link text attrs =
          (match (attrs.bind (·.get "title")).bind JValue.asStr with
           | some title => "[" ++ text ++ "](" ++ href ++ " \"" ++ title ++ "\")"
           | none => "[" ++ text ++ "](" ++ href ++ ")")) ∧
    (∀ (text : String) (attrs : JValue),
        apply_marks text (some [.obj [("type", .str "link"), ("attrs", attrs)]]) =
          format_link text (some attrs)) ∧
    format_link "x" (some (.obj [("href", .str "javascript:alert(1)")])) = "x" := by
  refine ⟨?_, ?_, ?_, rfl⟩
  · intro text attrs href hh hd
    have hne : href ≠ "" := by
      intro h0
      subst h0
      exact absurd hd (by decide)
    have hcond : (strStartsWith (rustToLowercase href) "javascript:" = true ∨
        strStartsWith (rustToLowercase href) "vbscript:" = true ∨
        strStartsWith (rustToLowercase href) "data:" = true) := by
      simp only [dangerousScheme, Bool.or_eq_true] at hd
      tauto
    simp only [format_link, hh, Option.getD_some]
    rw [if_neg hne, if_pos hcond]
  · intro text attrs href hh hne hd
    simp only [dangerousScheme, Bool.or_eq_false_iff] at hd
    obtain ⟨⟨h1, h2⟩, h3⟩ := hd
    have hcond : ¬(strStartsWith (rustToLowercase href) "javascript:" = true ∨
        strStartsWith (rustToLowercase href) "vbscript:" = true ∨
        strStartsWith (rustToLowercase href) "data:" = true) := by
      simp [h1, h2, h3]
    simp only [format_link, hh, Option.getD_some]
    rw [if_neg hne, if_neg hcond]
  · intro text attrs
    rfl

/-! ## C9 — date rendering -/

theorem yearLoop_stop (y r : Int) (h : r < daysInYear y) : yearLoop y r = (y, r) := by
  rw [yearLoop]
  simp [h]

theorem yearLoop_step (y r : Int) (h : ¬ r < daysInYear y) :
    yearLoop y r = yearLoop (y + 1) (r - daysInYear y) := by
  rw [yearLoop]
  simp [h]

/-- Post-conditions of the year loop: the remaining day count stays inside
the found year, the year only grows, and it grows by at most one year per
365 days consumed. -/
theorem yearLoop_spec :
    ∀ (n : Nat) (y r : Int), r.toNat ≤ n → 0 ≤ r →
      0 ≤ (yearLoop y r).2 ∧ (yearLoop y r).2 < daysInYear (yearLoop y r).1 ∧
      y ≤ (yearLoop y r).1 ∧ (yearLoop y r).1 * 365 ≤ y * 365 + r := by
  intro n
  induction n with
  | zero =>
    intro y r hn h0
    have h365 := daysInYear_ge y
    have hr : r = 0 := by omega
    subst hr
    rw [yearLoop_stop y 0 (by omega)]
    refine ⟨le_refl 0, by simpa using (by omega : (0:Int) < daysInYear y), le_refl y, by omega⟩
  | succ n ih =>
    intro y r hn h0
    have h365 := daysInYear_ge y
    by_cases hlt : r < daysInYear y
    · rw [yearLoop_stop y r hlt]
      exact ⟨h0, hlt, le_refl y, by omega⟩
    · rw [yearLoop_step y r hlt]
      have hrec := ih (y + 1) (r - daysInYear y) (by omega) (by omega)
      obtain ⟨a, b, c, d⟩ := hrec
      exact ⟨a, b, by omega, by omega⟩

/-- Post-conditions of the month loop over any month table with realistic
month lengths: it ends on a month within the table and a day offset below
the length of that month. -/
theorem monthLoop_spec (ds : List Int) : ∀ (r m : Int), 0 ≤ r → r < ds.sum →
    (∀ d ∈ ds, 1 ≤ d ∧ d ≤ 31) →
    m ≤ (monthLoop ds r m).1 ∧ (monthLoop ds r m).1 ≤ m + ds.length - 1 ∧
    0 ≤ (monthLoop ds r m).2 ∧ (monthLoop ds r m).2 ≤ 30 := by
  induction ds with
  | nil =>
    intro r m h0 hs hd
    simp only [List.sum_nil] at hs
    omega
  | cons d rest ih =>
    intro r m h0 hs hd
    have hd1 := hd d (by simp)
    simp only [List.sum_cons] at hs
    simp only [monthLoop]
    by_cases hlt : r < d
    · rw [if_pos hlt]
      simp only [List.length_cons]
      refine ⟨le_refl m, by omega, h0, by omega⟩
    · rw [if_neg hlt]
      have hrec := ih (r - d) (m + 1) (by omega) (by omega)
        (fun x hx => hd x (by simp [hx]))
      simp only [List.length_cons]
      obtain ⟨a, b, c, d2⟩ := hrec
      refine ⟨by omega, by omega, c, d2⟩

/-- Post-conditions of the month loop on either concrete month table,
starting from month 1 with a remaining day count inside the year. -/
theorem monthLoop_bounds (leap : Bool) (r : Int) (h0 : 0 ≤ r)
    (h1 : r < if leap then (366 : Int) else 365) :
    1 ≤ (monthLoop (daysInMonths leap) r 1).1 ∧
    (monthLoop (daysInMonths leap) r 1).1 ≤ 12 ∧
    0 ≤ (monthLoop (daysInMonths leap) r 1).2 ∧
    (monthLoop (daysInMonths leap) r 1).2 ≤ 30 := by
  have hsum : (daysInMonths leap).sum = if leap then (366 : Int) else 365 := by
    cases leap <;> decide
  have hlen : (daysInMonths leap).length = 12 := by cases leap <;> decide
  have hds : ∀ d ∈ daysInMonths leap, (1 : Int) ≤ d ∧ d ≤ 31 := by
    cases leap <;> decide
  have := monthLoop_spec (daysInMonths leap) r 1 h0 (by omega) hds
  omega

/-- Rendering of a date whose timestamp parses: the truncating division by
1000 feeds `chrono_format_date`. -/
theorem convert_date_parsed (node : JValue) (ts : String) (n : Int)
    (hts : ((node.get "attrs").bind (·.get "timestamp")).bind JValue.asStr = some ts)
    (hne : ts ≠ "") (hp : parseI64 ts = some n) :
    convert_date node = chrono_format_date (Int.tdiv n 1000) := by
  simp only [convert_date, hts, Option.getD_some]
  rw [if_neg hne, hp]

/-- The in-range branch of `chrono_format_date` produces a zero-padded
`year-month-day` string with calendar-plausible components. -/
theorem chrono_format_date_in_range (secs : Int) (h0 : 0 ≤ secs) (h1 : secs ≤ MAX_SECS) :
    ∃ y m d : Int, chrono_format_date secs =
        pad0 4 (toString y) ++ "-" ++ pad0 2 (toString m) ++ "-" ++ pad0 2 (toString d) ∧
      1970 ≤ y ∧ y ≤ 3000 ∧ 1 ≤ m ∧ m ≤ 12 ∧ 1 ≤ d ∧ d ≤ 31 := by
  have hdays0 : 0 ≤ Int.tdiv secs 86400 := Int.tdiv_nonneg h0 (by omega)
  have hdaysle : Int.tdiv secs 86400 ≤ 376200 := by
    rw [Int.tdiv_eq_ediv h0 (by omega)]
    have h2 : secs / 86400 ≤ 32503680000 / 86400 :=
      Int.ediv_le_ediv (by omega) (by simpa [MAX_SECS] using h1)
    have h3 : (32503680000 : Int) / 86400 = 376200 := by decide
    omega
  obtain ⟨ha, hb, hc, hd⟩ :=
    yearLoop_spec (Int.tdiv secs 86400).toNat 1970 (Int.tdiv secs 86400) (le_refl _) hdays0
  have hbb : (yearLoop 1970 (Int.tdiv secs 86400)).2 <
      if is_leap_year (yearLoop 1970 (Int.tdiv secs 86400)).1 then (366 : Int) else 365 := by
    unfold daysInYear at hb
    exact hb
  obtain ⟨m1, m2, m3, m4⟩ :=
    monthLoop_bounds (is_leap_year (yearLoop 1970 (Int.tdiv secs 86400)).1)
      (yearLoop 1970 (Int.tdiv secs 86400)).2 ha hbb
  refine ⟨(yearLoop 1970 (Int.tdiv secs 86400)).1,
    (monthLoop (daysInMonths (is_leap_year (yearLoop 1970 (Int.tdiv secs 86400)).1))
      (yearLoop 1970 (Int.tdiv secs 86400)).2 1).1,
    (monthLoop (daysInMonths (is_leap_year (yearLoop 1970 (Int.tdiv secs 86400)).1))
      (yearLoop 1970 (Int.tdiv secs 86400)).2 1).2 + 1, ?_, hc, by omega, m1, m2,
    by omega, by omega⟩
  simp only [chrono_format_date]
  rw [if_neg (by omega), if_neg (by simp only [MAX_SECS] at h1 ⊢; omega)]

/-- Rendering of the epoch date itself. -/
theorem chrono_epoch : chrono_format_date 0 = "1970-01-01" := by
  simp only [chrono_format_date]
  norm_num [MAX_SECS]
  rw [yearLoop_stop 1970 0 (by decide)]
  decide

/-- Truncating division sends the millisecond range `-999..-1` to zero. -/
theorem tdiv_small_neg (n : Int) (h1 : -999 ≤ n) (h2 : n ≤ -1) :
    Int.tdiv n 1000 = 0 := by
  have h3 : (-n).tdiv 1000 = 0 := Int.tdiv_eq_zero_of_lt (by omega) (by omega)
  have h4 : (-(-n)).tdiv 1000 = -((-n).tdiv 1000) := Int.neg_tdiv (-n) 1000
  rw [Int.neg_neg] at h4
  omega

/-- C9 counterexample: the timestamp `"-500"` parses to the negative
millisecond count -500, yet renders as the plain epoch date, not as the
pre-epoch marker (contrast `"-1000"`, which does render the marker). -/
theorem c9_counterexample :
    convert_date (.obj [("type", .str "date"),
        ("attrs", .obj [("timestamp", .str "-500")])]) = "1970-01-01" ∧
    convert_date (.obj [("type", .str "date"),
        ("attrs", .obj [("timestamp", .str "-1000")])]) = "1970-01-01 (pre-epoch: -1)" ∧
    ("1970-01-01" : String) ≠ "1970-01-01 (pre-epoch: 0)" := by
  refine ⟨?_, ?_, by decide⟩
  · rw [convert_date_parsed _ "-500" (-500) (by decide) (by decide) (by decide),
      show Int.tdiv (-500) 1000 = 0 from by decide, chrono_epoch]
  · rw [convert_date_parsed _ "-1000" (-1000) (by decide) (by decide) (by decide),
      show Int.tdiv (-1000) 1000 = -1 from by decide]
    simp only [chrono_format_date]
    rw [if_pos (by omega)]
    decide

/-- C9 (amended): for a date node whose `timestamp` attribute is the string
`ts`: if `ts` parses to a millisecond count whose truncated second count is
negative (all counts at or below -1000 ms), the pre-epoch marker is
rendered; millisecond counts in `-999..-1` truncate to second 0 and render
as `1970-01-01`; a non-negative second count within the year-3000 bound
renders a zero-padded `YYYY-MM-DD` date; a second count beyond the bound
renders the invalid-timestamp marker; and a payload that does not parse as
an `i64` passes through verbatim. -/
theorem c9_date_rendering :
    (∀ (node : JValue) (ts : String) (n : Int),
        ((node.get "attrs").bind (·.get "timestamp")).bind JValue.asStr = some ts →
        parseI64 ts = some n →
        Int.tdiv n 1000 < 0 →
        convert_date node = "1970-01-01 (pre-epoch: " ++ toString (Int.tdiv n 1000) ++ ")") ∧
    (∀ (node : JValue) (ts : String) (n : Int),
        ((node.get "attrs").bind (·.get "timestamp")).bind JValue.asStr = some ts →
        parseI64 ts = some n →
        0 ≤ Int.tdiv n 1000 → Int.tdiv n 1000 ≤ MAX_SECS →
        ∃ y m d : Int, convert_date node =
            pad0 4 (toString y) ++ "-" ++ pad0 2 (toString m) ++ "-" ++ pad0 2 (toString d) ∧
          1970 ≤ y ∧ y ≤ 3000 ∧ 1 ≤ m ∧ m ≤ 12 ∧ 1 ≤ d ∧ d ≤ 31) ∧
    (∀ (node : JValue) (ts : String) (n : Int),
        ((node.get "attrs").bind (·.get "timestamp")).bind JValue.asStr = some ts →
        parseI64 ts = some n →
        MAX_SECS < Int.tdiv n 1000 →
        convert_date node = "(invalid timestamp: " ++ toString (Int.tdiv n 1000) ++ ")") ∧
    (∀ (node : JValue) (ts : String),
        ((node.get "attrs").bind (·.get "timestamp")).bind JValue.asStr = some ts →
        parseI64 ts = none →
        convert_date node = ts) ∧
    (∀ (node : JValue) (ts : String) (n : Int),
        ((node.get "attrs").bind (·.get "timestamp")).bind JValue.asStr = some ts →
        parseI64 ts = some n →
        -999 ≤ n → n ≤ -1 →
        convert_date node = "1970-01-01") := by
  have hne : ∀ (ts : String) (n : Int), parseI64 ts = some n → ts ≠ "" := by
    intro ts n hp h0
    subst h0
    rw [show parseI64 "" = none from rfl] at hp
    exact Option.noConfusion hp
  refine ⟨?_, ?_, ?_, ?_, ?_⟩
  · intro node ts n hts hp hneg
    rw [convert_date_parsed node ts n hts (hne ts n hp) hp]
    simp only [chrono_format_date]
    rw [if_pos hneg]
  · intro node ts n hts hp h0 h1
    rw [convert_date_parsed node ts n hts (hne ts n hp) hp]
    exact chrono_format_date_in_range _ h0 h1
  · intro node ts n hts hp hbig
    rw [convert_date_parsed node ts n hts (hne ts n hp) hp]
    simp only [chrono_format_date]
    rw [if_neg (by simp only [MAX_SECS] at hbig ⊢; omega), if_pos hbig]
  · intro node ts hts hp
    by_cases h0 : ts = ""
    · subst h0
      simp [convert_date, hts]
    · simp only [convert_date, hts, Option.getD_some]
      rw [if_neg h0, hp]
  · intro node ts n hts hp hlo hhi
    rw [convert_date_parsed node ts n hts (hne ts n hp) hp, tdiv_small_neg n hlo hhi,
      chrono_epoch]

/-- C9 witness: concrete dates instantiating the pre-epoch, truncated-to-
zero, invalid-timestamp and non-numeric conjuncts. -/
theorem c9_date_rendering_witness :
    convert_date (.obj [("attrs", .obj [("timestamp", .str "-2000")])])
      = "1970-01-01 (pre-epoch: -2)" ∧
    convert_date (.obj [("attrs", .obj [("timestamp", .str "-5")])])
      = "1970-01-01" ∧
    convert_date (.obj [("attrs", .obj [("timestamp", .str "33000000000000")])])
      = "(invalid timestamp: 33000000000)" ∧
    convert_date (.obj [("attrs", .obj [("timestamp", .str "not-a-number")])])
      = "not-a-number" := by
  refine ⟨?_, ?_, ?_, ?_⟩
  · have h := c9_date_rendering.1 (.obj [("attrs", .obj [("timestamp", .str "-2000")])])
      "-2000" (-2000) (by decide) (by decide) (by decide)
    rw [h, show Int.tdiv (-2000) 1000 = -2 from by decide]
    decide
  · exact c9_date_rendering.2.2.2.2 (.obj [("attrs", .obj [("timestamp", .str "-5")])])
      "-5" (-5) (by decide) (by decide) (by decide) (by decide)
  · have h := c9_date_rendering.2.2.1 (.obj [("attrs", .obj [("timestamp", .str "33000000000000")])])
      "33000000000000" 33000000000000 (by decide) (by decide)
      (by simp only [MAX_SECS]; decide)
    rw [h, show Int.tdiv 33000000000000 1000 = 33000000000 from by decide]
    decide
  · exact c9_date_rendering.2.2.2.1 (.obj [("attrs", .obj [("timestamp", .str "not-a-number")])])
      "not-a-number" (by decide) (by decide)

/-! ## C1 — depth guard -/

theorem attach_filterMap {α β : Type} (l : List α) (f : α → Option β) :
    (l.attach.filterMap (fun c => f c.1)) = l.filterMap f := by
  induction l with
  | nil => rfl
  | cons a l ih =>
    simp only [List.attach_cons, List.filterMap_cons, List.filterMap_map]
    rw [← ih]
    rfl

theorem attach_flatMap {α β : Type} (l : List α) (f : α → List β) :
    (l.attach.flatMap (fun c => f c.1)) = l.flatMap f := by
  induction l with
  | nil => rfl
  | cons a l ih =>
    simp only [List.attach_cons, List.flatMap_cons, List.flatMap_map]
    rw [← ih]

/-- The depth guard itself: every call above `MAX_DEPTH` returns the
truncation marker immediately, whatever the node is. -/
theorem convert_block_node_guard (node : JValue) (d : Nat) (h : d > 50) :
    convert_block_node node d = some truncationMarker := by
  rw [convert_block_node]
  rw [if_pos (by simpa [MAX_DEPTH] using h)]

/-- Attach-free form of `convert_list_item`. -/
theorem convert_list_item_eq (node : JValue) (depth : Nat) :
    convert_list_item node depth =
      match (node.get "content").bind JValue.asArr with
      | none => none
      | some content =>
        let parts := content.filterMap (fun c =>
          match ((c.get "type").bind JValue.asStr).getD "" with
          | "paragraph" => convert_paragraph c
          | "bulletList" => (convert_bullet_list c (depth + 1)).map (fun l => "\n" ++ l)
          | "orderedList" => (convert_ordered_list c (depth + 1)).map (fun l => "\n" ++ l)
          | _ => convert_block_node c (depth + 1))
        if parts.isEmpty then none else some (String.intercalate " " parts) := by
  rw [convert_list_item]
  rcases h : (node.get "content").bind JValue.asArr with _ | content
  · rfl
  · have := attach_filterMap content (fun c =>
      match ((c.get "type").bind JValue.asStr).getD "" with
      | "paragraph" => convert_paragraph c
      | "bulletList" => (convert_bullet_list c (depth + 1)).map (fun l => "\n" ++ l)
      | "orderedList" => (convert_ordered_list c (depth + 1)).map (fun l => "\n" ++ l)
      | _ => convert_block_node c (depth + 1))
    simp only [this]

/-- Attach-free form of `convert_blockquote`. -/
theorem convert_blockquote_eq (node : JValue) :
    convert_blockquote node =
      match (node.get "content").bind JValue.asArr with
      | none => none
      | some content =>
        let lines := (content.filterMap (fun c => convert_block_node c 0)).flatMap
          (fun text => (rustLines text).map (fun l => "> " ++ l))
        if lines.isEmpty then none else some (String.intercalate "\n" lines) := by
  rw [convert_blockquote]
  rcases h : (node.get "content").bind JValue.asArr with _ | content
  · rfl
  · have := attach_filterMap content (fun c => convert_block_node c 0)
    simp only [this]

/-- Dispatch of `convert_block_node` on a list item below the guard. -/
theorem convert_block_node_listItem (node : JValue) (d : Nat) (hd : ¬ d > 50)
    (hty : (node.get "type").bind JValue.asStr = some "listItem") :
    convert_block_node node d = convert_list_item node d := by
  rw [convert_block_node]
  rw [if_neg (by simpa [MAX_DEPTH] using hd), hty]
  rfl

/-- Dispatch of `convert_block_node` on a blockquote below the guard. -/
theorem convert_block_node_blockquote (node : JValue) (d : Nat) (hd : ¬ d > 50)
    (hty : (node.get "type").bind JValue.asStr = some "blockquote") :
    convert_block_node node d = convert_blockquote node := by
  rw [convert_block_node]
  rw [if_neg (by simpa [MAX_DEPTH] using hd), hty]
  rfl

theorem intercalate_singleton (sep s : String) : String.intercalate sep [s] = s := rfl

/-- A nested list-item chain of combined depth beyond the guard renders to
exactly the truncation marker. -/
theorem nestLI_marker : ∀ (n d : Nat), d ≤ 50 → 52 ≤ d + n →
    convert_block_node (nestLI n) d = some truncationMarker := by
  intro n
  induction n with
  | zero => intro d h1 h2; omega
  | succ n ih =>
    intro d h1 h2
    match n, h2 with
    | 0, h2 => omega
    | n + 1, h2 =>
      rw [convert_block_node_listItem (nestLI (n + 1 + 1)) d (by omega) rfl,
        convert_list_item_eq]
      simp only [show ((nestLI (n + 1 + 1)).get "content").bind JValue.asArr
          = some [nestLI (n + 1)] from rfl]
      simp only [List.filterMap_cons, List.filterMap_nil]
      have hchild : (match (((nestLI (n + 1)).get "type").bind JValue.asStr).getD "" with
          | "paragraph" => convert_paragraph (nestLI (n + 1))
          | "bulletList" => (convert_bullet_list (nestLI (n + 1)) (d + 1)).map (fun l => "\n" ++ l)
          | "orderedList" => (convert_ordered_list (nestLI (n + 1)) (d + 1)).map (fun l => "\n" ++ l)
          | _ => convert_block_node (nestLI (n + 1)) (d + 1))
          = convert_block_node (nestLI (n + 1)) (d + 1) := rfl
      rw [hchild]
      by_cases hg : d + 1 > 50
      · rw [convert_block_node_guard _ _ hg]
        simp [intercalate_singleton]
      · rw [ih (d + 1) (by omega) (by omega)]
        simp [intercalate_singleton]

theorem asString_toList (s : String) : s.toList.asString = s := rfl

theorem toList_append (a b : String) : (a ++ b).toList = a.toList ++ b.toList := rfl

/-- Every character of a blockquote-chain rendering is `>`, a space or `x`. -/
theorem bqString_chars : ∀ (n : Nat) (c : Char), c ∈ (bqString n).toList →
    c = '>' ∨ c = ' ' ∨ c = 'x' := by
  intro n
  induction n with
  | zero =>
    intro c hc
    have : c = 'x' := by simpa [bqString] using hc
    tauto
  | succ n ih =>
    intro c hc
    rw [bqString, toList_append] at hc
    rcases List.mem_append.1 hc with h | h
    · have : c = '>' ∨ c = ' ' := by simpa using h
      tauto
    · exact ih c h

theorem splitNlAux_no_newline : ∀ (cs : List Char), (∀ c ∈ cs, c ≠ '\n') →
    splitNlAux cs = [cs] := by
  intro cs
  induction cs with
  | nil => intro h; rfl
  | cons c rest ih =>
    intro h
    have hc : c ≠ '\n' := h c (by simp)
    rw [splitNlAux, if_neg hc, ih (fun x hx => h x (by simp [hx]))]

theorem toList_ne_nil (s : String) (h : s ≠ "") : s.toList ≠ [] :=
  fun h0 => h (String.ext h0)

/-- A non-empty single-line string is its own `lines` list. -/
theorem rustLines_single (s : String) (hne : s ≠ "")
    (hnl : ∀ c ∈ s.toList, c ≠ '\n') : rustLines s = [s] := by
  unfold rustLines
  rw [splitNlAux_no_newline s.toList hnl]
  simp only [List.reverse_cons, List.reverse_nil, List.nil_append]
  rw [if_neg (toList_ne_nil s hne)]
  simp only [List.reverse_nil, List.map_nil, List.nil_append]
  rw [asString_toList]

theorem bqString_ne_empty (n : Nat) : bqString n ≠ "" := by
  cases n with
  | zero => simp [bqString]
  | succ n =>
    intro h
    have := congrArg String.toList h
    rw [bqString, toList_append] at this
    simp at this

theorem bqString_no_newline (n : Nat) : ∀ c ∈ (bqString n).toList, c ≠ '\n' := by
  intro c hc
  rcases bqString_chars n c hc with h | h | h <;> subst h <;> decide

/-- Blockquote chains of any depth render completely: every level resets
the recursion depth to 0, so the guard never fires. -/
theorem nestBQ_render : ∀ n, convert_block_node (nestBQ n) 0 = some (bqString n) := by
  intro n
  induction n with
  | zero =>
    rw [convert_block_node]
    decide
  | succ n ih =>
    rw [convert_block_node_blockquote (nestBQ (n + 1)) 0 (by omega) rfl, convert_blockquote_eq]
    simp only [show ((nestBQ (n + 1)).get "content").bind JValue.asArr
        = some [nestBQ n] from rfl]
    simp only [List.filterMap_cons, List.filterMap_nil, ih]
    rw [List.flatMap_cons,
      rustLines_single (bqString n) (bqString_ne_empty n) (bqString_no_newline n)]
    simp [intercalate_singleton, bqString]

/-- The truncation marker never appears in a blockquote-chain rendering. -/
theorem marker_not_in_bqString (n : Nat) :
    ¬ truncationMarker.toList <:+: (bqString n).toList := by
  intro h
  have hC : 'C' ∈ truncationMarker.toList := by decide
  have hmem := h.subset hC
  rcases bqString_chars n 'C' hmem with h1 | h1 | h1 <;> exact absurd h1 (by decide)

/-- C1 counterexample: a document nested 60 blockquote levels deep renders
completely — the output is the full 60-level quote of `x` and contains no
occurrence of the truncation marker, because blockquote recursion restarts
at depth 0. -/
theorem c1_counterexample :
    convert_block_node (nestBQ 60) 0 = some (bqString 60) ∧
    ¬ truncationMarker.toList <:+: (bqString 60).toList :=
  ⟨nestBQ_render 60, marker_not_in_bqString 60⟩

/-- C1 (amended): the guard is immediate — at any depth above 50 the
renderer returns the literal truncation marker without recursing; depth
accumulates only along the direct block recursion inside list items, so a
chain of more than 51 nested list items renders to exactly the marker; but
blockquotes (like panels, table cells, expands and layout columns) restart
their children at depth 0, so a blockquote chain of any depth renders
completely, marker-free. -/
theorem c1_depth_guard :
    (∀ (node : JValue) (d : Nat), d > 50 →
        convert_block_node node d = some truncationMarker) ∧
    (∀ (n d : Nat), d ≤ 50 → 52 ≤ d + n →
        convert_block_node (nestLI n) d = some truncationMarker) ∧
    (∀ n : Nat, convert_block_node (nestBQ n) 0 = some (bqString n) ∧
        ¬ truncationMarker.toList <:+: (bqString n).toList) :=
  ⟨convert_block_node_guard, nestLI_marker,
    fun n => ⟨nestBQ_render n, marker_not_in_bqString n⟩⟩

/-- C1 witness: the guard at depth 51 on a concrete node, and the marker
produced by a 60-deep list-item chain rendered from depth 0. -/
theorem c1_depth_guard_witness :
    convert_block_node JValue.null 51 = some truncationMarker ∧
    convert_block_node (nestLI 60) 0 = some truncationMarker :=
  ⟨c1_depth_guard.1 JValue.null 51 (by omega),
    c1_depth_guard.2.1 60 0 (by omega) (by omega)⟩

/-! ## C10 — heading rendering -/

/-- C10 counterexample: an explicit integer level 0 produces zero `#`
characters — the rendered line starts with a space, contradicting the
claimed lower clamp to 1. -/
theorem c10_counterexample :
    convert_heading (.obj [("type", .str "heading"),
        ("attrs", .obj [("level", .num (.int 0))]),
        ("content", .arr [.obj [("type", .str "text"), ("text", .str "x")]])])
      = some " x" ∧
    strStartsWith " x" "#" = false := by
  exact ⟨by decide, by decide⟩

/-- C10 (amended): a heading level read from the attributes is clamped from
above by 6 but not from below — the rendered prefix is `min level 6` `#`
characters, so level 0 yields none; a missing or non-`u64` level defaults
to 1; a heading whose rendered inline content is blank renders to `none`. -/
theorem c10_heading :
    (∀ (node : JValue) (L : Nat) (content : List JValue),
        ((node.get "attrs").bind (·.get "level")).bind JValue.asU64 = some L →
        (node.get "content").bind JValue.asArr = some content →
        rustTrim (convert_inline_nodes content) ≠ "" →
        convert_heading node =
          some (strRepeat "#" (min L 6) ++ " " ++ convert_inline_nodes content)) ∧
    (∀ (node : JValue) (content : List JValue),
        ((node.get "attrs").bind (·.get "level")).bind JValue.asU64 = none →
        (node.get "content").bind JValue.asArr = some content →
        rustTrim (convert_inline_nodes content) ≠ "" →
        convert_heading node =
          some (strRepeat "#" 1 ++ " " ++ convert_inline_nodes content)) ∧
    (∀ (node : JValue) (content : List JValue),
        (node.get "content").bind JValue.asArr = some content →
        rustTrim (convert_inline_nodes content) = "" →
        convert_heading node = none) ∧
    convert_heading (.obj [("type", .str "heading"),
        ("attrs", .obj [("level", .num (.int 7))]),
        ("content", .arr [.obj [("type", .str "text"), ("text", .str "x")]])])
      = some "###### x" ∧
    convert_heading (.obj [("type", .str "heading"),
        ("content", .arr [.obj [("type", .str "text"), ("text", .str "x")]])])
      = some "# x" := by
  refine ⟨?_, ?_, ?_, by decide, by decide⟩
  · intro node L content hl hc htrim
    simp only [convert_heading, hl, hc, Option.getD_some]
    rw [if_neg htrim]
  · intro node content hl hc htrim
    simp only [convert_heading, hl, hc, Option.getD_none]
    rw [if_neg htrim]
    simp
  · intro node content hc htrim
    simp only [convert_heading, hc]
    rw [if_pos htrim]

/-! ## C8 — table rendering -/

/-- Attach-free form of `convert_cell_content`. -/
theorem convert_cell_content_eq (cell : JValue) :
    convert_cell_content cell =
      escapePipes
        (match (cell.get "content").bind JValue.asArr with
         | none => ""
         | some content =>
           String.intercalate " " (content.filterMap (fun n => convert_block_node n 0))) := by
  rw [convert_cell_content]
  rcases h : (cell.get "content").bind JValue.asArr with _ | content
  · rfl
  · have := attach_filterMap content (fun n => convert_block_node n 0)
    simp only [this]

/-- Attach-free form of the row loop of `convert_table`. -/
theorem table_rows_loop_eq (rows : List JValue) (isFirstRow : Bool) :
    table_rows_loop rows isFirstRow =
      match rows with
      | [] => some []
      | row :: rest =>
        match (row.get "content").bind JValue.asArr with
        | none => none
        | some cells =>
          let rowCells := cells.flatMap cell_columns
          let line := "| " ++ String.intercalate " | " rowCells ++ " |"
          let firstPart :=
            if isFirstRow then
              [line,
               "| " ++ String.intercalate " | " (List.replicate rowCells.length "---") ++ " |"]
            else [line]
          (table_rows_loop rest false).map (fun tail => firstPart ++ tail) := by
  cases rows with
  | nil => rw [table_rows_loop]
  | cons row rest =>
    rw [table_rows_loop]
    rcases h : (row.get "content").bind JValue.asArr with _ | cells
    · simp only [h]
    · simp only [h]
      have := attach_flatMap cells cell_columns
      simp only [this]

/-- Every non-first row contributes exactly its row line. -/
theorem table_rows_loop_spec (rows : List JValue) :
    (∀ r ∈ rows, ((r.get "content").bind JValue.asArr).isSome) →
    table_rows_loop rows false = some (rows.map spec_row_line) := by
  induction rows with
  | nil =>
    intro h
    rw [table_rows_loop_eq]
    rfl
  | cons row rest ih =>
    intro h
    rw [table_rows_loop_eq]
    rcases hc : (row.get "content").bind JValue.asArr with _ | cells
    · exact absurd (h row (by simp)) (by simp [hc])
    · simp only [hc]
      rw [ih (fun r hr => h r (by simp [hr]))]
      simp [spec_row_line, hc]

/-- The first row contributes its row line and then the separator row. -/
theorem table_rows_loop_first (r0 : JValue) (rest : List JValue)
    (h0 : ((r0.get "content").bind JValue.asArr).isSome)
    (hr : ∀ r ∈ rest, ((r.get "content").bind JValue.asArr).isSome) :
    table_rows_loop (r0 :: rest) true =
      some (spec_row_line r0 :: spec_separator r0 :: rest.map spec_row_line) := by
  rw [table_rows_loop_eq]
  rcases hc : (r0.get "content").bind JValue.asArr with _ | cells
  · exact absurd h0 (by simp [hc])
  · simp only [hc]
    rw [table_rows_loop_spec rest hr]
    simp [spec_row_line, spec_separator, hc]

/-- For every table whose rows all carry a cell array, the rendering is
one row line per row — the first row, whatever its cell kinds, followed
immediately by the `---` separator sized by the first row, then the
remaining rows — joined by newlines. -/
theorem convert_table_structure :
    (∀ (node : JValue) (r0 : JValue) (rest : List JValue),
        (node.get "content").bind JValue.asArr = some (r0 :: rest) →
        ((r0.get "content").bind JValue.asArr).isSome →
        (∀ r ∈ rest, ((r.get "content").bind JValue.asArr).isSome) →
        convert_table node = some (String.intercalate "\n"
          (spec_row_line r0 :: spec_separator r0 :: rest.map spec_row_line))) := by
  intro node r0 rest hcont h0 hr
  rw [convert_table]
  split
  · rename_i heq
    rw [hcont] at heq
    exact absurd heq (by simp)
  · rename_i rows heq
    rw [hcont] at heq
    injection heq with heq
    subst heq
    rw [if_neg (by simp)]
    rw [table_rows_loop_first r0 rest h0 hr]
    rfl

theorem convert_block_node_mkParagraph (s : String) :
    convert_block_node (mkParagraphNode s) 0 =
      if rustTrim s = "" then none else some s := by
  rw [convert_block_node]
  rw [if_neg (by decide)]
  rw [show ((mkParagraphNode s).get "type").bind JValue.asStr = some "paragraph" from rfl]
  show convert_paragraph (mkParagraphNode s) = _
  simp only [convert_paragraph]
  rw [show ((mkParagraphNode s).get "content").bind JValue.asArr
      = some [mkTextNode s] from rfl]
  rfl

theorem convert_cell_content_mkCell (kind s : String) (h : rustTrim s ≠ "") :
    convert_cell_content (mkCellNode kind s) = escapePipes s := by
  rw [convert_cell_content_eq]
  rw [show ((mkCellNode kind s).get "content").bind JValue.asArr
      = some [mkParagraphNode s] from rfl]
  simp only [List.filterMap_cons, List.filterMap_nil, convert_block_node_mkParagraph,
    if_neg h]
  rw [intercalate_singleton]

theorem cell_columns_mkCell (kind s : String) (h : rustTrim s ≠ "") :
    cell_columns (mkCellNode kind s) = [escapePipes s] := by
  rw [cell_columns]
  rw [show (((mkCellNode kind s).get "attrs").bind (·.get "colspan")).bind JValue.asU64
      = none from rfl]
  simp only [Option.getD_none, convert_cell_content_mkCell kind s h]
  rfl

/-- C8: the row/separator structure of `convert_table` (first row treated
as the header whatever its cell kinds, separator of one `---` per expanded
column of the first row immediately after it), the colspan expansion
(content in the first expanded column, empty strings after), and the
escaping of pipes inside cell content. -/
theorem c8_table_rendering :
    (∀ (node : JValue) (r0 : JValue) (rest : List JValue),
        (node.get "content").bind JValue.asArr = some (r0 :: rest) →
        ((r0.get "content").bind JValue.asArr).isSome →
        (∀ r ∈ rest, ((r.get "content").bind JValue.asArr).isSome) →
        convert_table node = some (String.intercalate "\n"
          (spec_row_line r0 :: spec_separator r0 :: rest.map spec_row_line))) ∧
    cell_columns (.obj [("type", .str "tableCell"),
        ("attrs", .obj [("colspan", .num (.int 2))]),
        ("content", .arr [mkParagraphNode "wide"])]) = ["wide", ""] ∧
    convert_cell_content (mkCellNode "tableCell" "a|b") = "a\\|b" := by
  refine ⟨convert_table_structure, ?_, ?_⟩
  · rw [cell_columns]
    rw [show (((JValue.obj [("type", .str "tableCell"),
        ("attrs", .obj [("colspan", .num (.int 2))]),
        ("content", .arr [mkParagraphNode "wide"])]).get "attrs").bind
          (·.get "colspan")).bind JValue.asU64 = some 2 from by decide]
    rw [convert_cell_content_eq]
    rw [show ((JValue.obj [("type", .str "tableCell"),
        ("attrs", .obj [("colspan", .num (.int 2))]),
        ("content", .arr [mkParagraphNode "wide"])]).get "content").bind JValue.asArr
        = some [mkParagraphNode "wide"] from rfl]
    simp only [List.filterMap_cons, List.filterMap_nil, convert_block_node_mkParagraph]
    rw [if_neg (by decide)]
    rw [intercalate_singleton]
    decide
  · rw [convert_cell_content_mkCell "tableCell" "a|b" (by decide)]
    decide

/-- C8 witness: the concrete two-column table renders exactly one header
line, one separator line and one data line, in that order. -/
theorem c8_table_rendering_witness :
    convert_table c8ConcreteTable = some "| A | B |\n| --- | --- |\n| 1 | 2 |" := by
  rw [c8_table_rendering.1 c8ConcreteTable
    (.obj [("type", .str "tableRow"),
      ("content", .arr [mkCellNode "tableHeader" "A", mkCellNode "tableHeader" "B"])])
    [.obj [("type", .str "tableRow"),
      ("content", .arr [mkCellNode "tableCell" "1", mkCellNode "tableCell" "2"])]]
    rfl (by decide) ?hr]
  case hr =>
    intro r hrr
    simp only [List.mem_singleton] at hrr
    subst hrr
    decide
  simp only [List.map_cons, List.map_nil, spec_row_line, spec_separator]
  rw [show (((JValue.obj [("type", .str "tableRow"),
      ("content", .arr [mkCellNode "tableHeader" "A", mkCellNode "tableHeader" "B"])]).get
        "content").bind JValue.asArr).getD []
      = [mkCellNode "tableHeader" "A", mkCellNode "tableHeader" "B"] from rfl]
  rw [show (((JValue.obj [("type", .str "tableRow"),
      ("content", .arr [mkCellNode "tableCell" "1", mkCellNode "tableCell" "2"])]).get
        "content").bind JValue.asArr).getD []
      = [mkCellNode "tableCell" "1", mkCellNode "tableCell" "2"] from rfl]
  simp only [List.flatMap_cons, List.flatMap_nil, List.map_cons, List.map_nil,
    cell_columns_mkCell "tableHeader" "A" (by decide),
    cell_columns_mkCell "tableHeader" "B" (by decide),
    cell_columns_mkCell "tableCell" "1" (by decide),
    cell_columns_mkCell "tableCell" "2" (by decide)]
  decide

/-! ## C3 — Markdown -> ADF builder -/

/-- C3: the builder is total and always yields a document the validator
accepts; on the modelled parser fragment, a plain string becomes exactly
one paragraph holding one text node carrying the string verbatim, and
blank input yields an empty top-level content sequence. -/
theorem c3_markdown_builder :
    (∀ events : List MdEvent, validate_adf (buildFromEvents events) = .ok ()) ∧
    (∀ s : String, isPlainText s = true →
        markdown_to_adf s = some (mkDoc [mkParagraphNode s])) ∧
    markdown_to_adf "" = some (mkDoc []) ∧
    markdown_to_adf "   \n\t " = some (mkDoc []) := by
  refine ⟨fun events => rfl, ?_, rfl, rfl⟩
  intro s h
  unfold markdown_to_adf parseEvents
  rw [if_pos h]
  rfl

/-- C3 witness: the plain string `hello` and the envelope of an arbitrary
concrete event stream. -/
theorem c3_markdown_builder_witness :
    markdown_to_adf "hello" = some (mkDoc [mkParagraphNode "hello"]) ∧
    validate_adf (buildFromEvents c4_events) = .ok () :=
  ⟨c3_markdown_builder.2.1 "hello" (by decide), c3_markdown_builder.1 c4_events⟩

/-! ## C4 — construct-then-render round trip -/

/-- Dispatch of `convert_block_node` on a paragraph below the guard. -/
theorem convert_block_node_paragraph_dispatch (node : JValue) (d : Nat) (hd : ¬ d > 50)
    (hty : (node.get "type").bind JValue.asStr = some "paragraph") :
    convert_block_node node d = convert_paragraph node := by
  rw [convert_block_node]
  rw [if_neg (by simpa [MAX_DEPTH] using hd), hty]
  rfl

/-- Dispatch of `convert_block_node` on a heading below the guard. -/
theorem convert_block_node_heading_dispatch (node : JValue) (d : Nat) (hd : ¬ d > 50)
    (hty : (node.get "type").bind JValue.asStr = some "heading") :
    convert_block_node node d = convert_heading node := by
  rw [convert_block_node]
  rw [if_neg (by simpa [MAX_DEPTH] using hd), hty]
  rfl

/-- C4: building the scenario document and rendering it back reproduces the
original Markdown byte for byte — heading marker, strong mark and code
mark included. -/
theorem c4_roundtrip :
    markdown_to_adf c4_markdown = some (buildFromEvents c4_events) ∧
    adf_to_markdown (buildFromEvents c4_events) = c4_markdown := by
  refine ⟨rfl, ?_⟩
  rw [show buildFromEvents c4_events = mkDoc [c4_heading_node, c4_paragraph_node] from rfl]
  simp only [adf_to_markdown]
  rw [show ((mkDoc [c4_heading_node, c4_paragraph_node]).get "content").bind JValue.asArr
      = some [c4_heading_node, c4_paragraph_node] from rfl]
  simp only [List.filterMap_cons, List.filterMap_nil]
  rw [convert_block_node_heading_dispatch c4_heading_node 0 (by decide) rfl,
    convert_block_node_paragraph_dispatch c4_paragraph_node 0 (by decide) rfl]
  decide

/-! ## C7 — input dispatcher -/

/-- C7: strings are routed to the Markdown builder; objects passing
validation are returned completely unchanged and a validation error is
propagated as-is; null becomes the empty document; every other shape
(number, boolean, array) fails with the message naming the field and
containing `must be string or ADF object`. -/
theorem c7_process_adf_input :
    (∀ (s f : String), process_adf_input (.str s) f = .ok (text_to_adf_model s)) ∧
    (∀ (kvs : List (String × JValue)) (f : String),
        validate_adf (.obj kvs) = .ok () →
        process_adf_input (.obj kvs) f = .ok (.obj kvs)) ∧
    (∀ (kvs : List (String × JValue)) (f e : String),
        validate_adf (.obj kvs) = .error e →
        process_adf_input (.obj kvs) f = .error e) ∧
    (∀ f : String, process_adf_input .null f = .ok (mkDoc [])) ∧
    (∀ (f : String) (n : JNum), process_adf_input (.num n) f
        = .error (f ++ " must be string or ADF object, got " ++ debugRepr (.num n))) ∧
    (∀ (f : String) (b : Bool), process_adf_input (.bool b) f
        = .error (f ++ " must be string or ADF object, got " ++ debugRepr (.bool b))) ∧
    (∀ (f : String) (xs : List JValue), process_adf_input (.arr xs) f
        = .error (f ++ " must be string or ADF object, got " ++ debugRepr (.arr xs))) ∧
    process_adf_input (.bool true) "comment"
      = .error ("comment " ++ "must be string or ADF object" ++ ", got Bool(true)") := by
  refine ⟨fun s f => rfl, ?_, ?_, fun f => rfl, fun f n => rfl, fun f b => rfl,
    fun f xs => rfl, ?_⟩
  · intro kvs f h
    simp only [process_adf_input, h]
  · intro kvs f e h
    simp only [process_adf_input, h]
  · rw [show ("comment " ++ "must be string or ADF object" ++ ", got Bool(true)" : String)
        = "comment" ++ " must be string or ADF object, got " ++ debugRepr (.bool true)
        from by decide]
    rfl

/-- C7 witness: a valid concrete ADF object passes through unchanged, and
an object with the wrong `type` propagates the validation error. -/
theorem c7_process_adf_input_witness :
    process_adf_input (.obj [("type", .str "doc"), ("version", .num (.int 1)),
        ("content", .arr [])]) "description"
      = .ok (.obj [("type", .str "doc"), ("version", .num (.int 1)),
        ("content", .arr [])]) ∧
    process_adf_input (.obj [("type", .str "paragraph"), ("version", .num (.int 1)),
        ("content", .arr [])]) "description"
      = .error "Invalid ADF: type must be \x27doc\x27, got \x27paragraph\x27" :=
  ⟨c7_process_adf_input.2.1 [("type", .str "doc"), ("version", .num (.int 1)),
      ("content", .arr [])] "description" rfl,
   c7_process_adf_input.2.2.1 [("type", .str "paragraph"), ("version", .num (.int 1)),
      ("content", .arr [])] "description"
      "Invalid ADF: type must be \x27doc\x27, got \x27paragraph\x27" rfl⟩

/-- C2 witness: the minimal valid envelope, accepted through the
characterization. -/
theorem c2_validate_adf_witness : validate_adf (mkDoc []) = .ok () :=
  (c2_validate_adf.1 (mkDoc [])).2
    ⟨[("type", .str "doc"), ("version", .num (.int 1)), ("content", .arr [])], rfl, rfl, rfl,
      [], rfl⟩

/-- C6 witness: an upper-case `JAVASCRIPT:` link is dropped; a safe https
link renders with and without its title. -/
theorem c6_link_sanitization_witness :
    format_link "x" (some (.obj [("href", .str "JAVASCRIPT:alert(1)")])) = "x" ∧
    format_link "click" (some (.obj [("href", .str "https://example.com")]))
      = "[click](https://example.com)" ∧
    format_link "click" (some (.obj [("href", .str "https://example.com"),
        ("title", .str "Example")]))
      = "[click](https://example.com \"Example\")" := by
  refine ⟨?_, ?_, ?_⟩
  · exact c6_link_sanitization.1 "x" (some (.obj [("href", .str "JAVASCRIPT:alert(1)")]))
      "JAVASCRIPT:alert(1)" rfl (by decide)
  · have h := c6_link_sanitization.2.1 "click"
      (some (.obj [("href", .str "https://example.com")]))
      "https://example.com" rfl (by decide) (by decide)
    rw [h]
    decide
  · have h := c6_link_sanitization.2.1 "click"
      (some (.obj [("href", .str "https://example.com"), ("title", .str "Example")]))
      "https://example.com" rfl (by decide) (by decide)
    rw [h]
    decide

/-- C10 witness: a level-3 heading renders with three `#` characters. -/
theorem c10_heading_witness :
    convert_heading (.obj [("type", .str "heading"),
        ("attrs", .obj [("level", .num (.int 3))]),
        ("content", .arr [mkTextNode "Title"])]) = some "### Title" := by
  have h := c10_heading.1 (.obj [("type", .str "heading"),
      ("attrs", .obj [("level", .num (.int 3))]),
      ("content", .arr [mkTextNode "Title"])]) 3 [mkTextNode "Title"]
      rfl rfl (by decide)
  rw [h]
  decide
